import Mathlib

/-!
Shallow embedding of the data-preparation and training-orchestration
pipeline of a Bi-LSTM part-of-speech tagger (postagger.py), together
with proofs about its vocabulary construction, batching, checkpointing,
prediction and rendering logic.

Python dicts are modelled as association lists whose entries appear in
insertion order (matching CPython dict semantics); Python lists as Lean
lists; fallible operations (IndexError, KeyError, ValueError, failed
assert) as Option-valued functions returning none.  The calls to
random.shuffle are modelled by explicit permutation parameters that the
theorems constrain to be permutations of the ranges the code shuffles.
-/

namespace PosTagger

/-- Python string order: lexicographic on the underlying character list. -/
def pyStrLe (a b : String) : Prop := a.data ≤ b.data

instance : DecidableRel pyStrLe := fun a b => inferInstanceAs (Decidable (a.data ≤ b.data))

/-- Python dict assignment d[k] = v on an insertion-ordered association
list: overwrite in place when the key exists, append otherwise. -/
def dictSet (d : List (String × Nat)) (k : String) (v : Nat) : List (String × Nat) :=
  if d.any (fun p => p.1 == k) then
    d.map (fun p => if p.1 == k then (k, v) else p)
  else d ++ [(k, v)]

/-- The idiom d[k] = len(d) used throughout make_dict. -/
def dictAddLen (d : List (String × Nat)) (k : String) : List (String × Nat) :=
  dictSet d k d.length

/-- flatten in make_dict: list of list to list. -/
def flatten (l : List (List String)) : List String := l.flatten

/-- purify in make_dict: remove B- and I- via str.replace (all occurrences),
as the source does.  The set(...) wrapper is modelled by the dedup applied
by gather_label_set below. -/
def purify (l : List String) : List String :=
  l.map (fun item => (item.replace "B-" "").replace "I-" "")

/-- The label_set of make_dict: either the external label-list file
contents, or the union of the purified train/dev/test tag sequences
(a Python set, modelled as a deduplicated list). -/
def gather_label_set (label_list : Option (List String))
    (train_y dev_y test_y : List (List String)) : List String :=
  match label_list with
  | some ls => ls
  | none =>
      ((purify (flatten train_y)) ++ purify (flatten dev_y) ++ purify (flatten test_y)).dedup

/-- The loop of make_dict that inserts a B- and an I- entry per base label. -/
def addLabels (d : List (String × Nat)) (ls : List String) : List (String × Nat) :=
  ls.foldl (fun d lab => dictAddLen (dictAddLen d ("B-" ++ lab)) ("I-" ++ lab)) d

/-- The label2id dictionary built by make_dict: sort the label set
(a stable sort models Python's sorted), then insert <pad>, O, and for
each base label its B- and I- variants, each id being the dict size at
insertion time. -/
def make_label2id (label_list : Option (List String))
    (train_y dev_y test_y : List (List String)) : List (String × Nat) :=
  let label_set := List.insertionSort pyStrLe (gather_label_set label_list train_y dev_y test_y)
  addLabels (dictAddLen (dictAddLen [] "<pad>") "O") label_set

/-- id2label in make_dict: the inverse pairs of label2id. -/
def id2label_of (label2id : List (String × Nat)) : List (Nat × String) :=
  label2id.map (fun p => (p.2, p.1))

/-! Association-list lemmas. -/

lemma any_key_iff (d : List (String × Nat)) (k : String) :
    (d.any (fun p => p.1 == k)) = true ↔ k ∈ d.map Prod.fst := by
  simp only [List.any_eq_true, beq_iff_eq, List.mem_map]

lemma dictAddLen_fresh {d : List (String × Nat)} {k : String}
    (h : k ∉ d.map Prod.fst) : dictAddLen d k = d ++ [(k, d.length)] := by
  unfold dictAddLen dictSet
  rw [if_neg (fun hc => h ((any_key_iff d k).mp hc))]

lemma lookup_eq_none_of_not_mem {α β : Type} [BEq α] [LawfulBEq α]
    {d : List (α × β)} {k : α}
    (h : k ∉ d.map Prod.fst) : List.lookup k d = none := by
  induction d with
  | nil => rfl
  | cons a tl ih =>
      simp only [List.map_cons, List.mem_cons, not_or] at h
      have hb : (k == a.1) = false := by
        simpa using h.1
      simp only [List.lookup, hb]
      exact ih h.2

lemma lookup_some_mem {α β : Type} [BEq α] [LawfulBEq α] :
    ∀ {d : List (α × β)} {k : α} {v : β},
    List.lookup k d = some v → (k, v) ∈ d := by
  intro d
  induction d with
  | nil => intro k v h; cases h
  | cons a tl ih =>
      intro k v h
      by_cases hk : k = a.1
      · subst hk
        simp only [List.lookup, beq_self_eq_true] at h
        cases h
        left
      · have hb : (k == a.1) = false := by simpa using hk
        simp only [List.lookup, hb] at h
        exact List.mem_cons_of_mem _ (ih h)

lemma mem_key_of_lookup_some {α β : Type} [BEq α] [LawfulBEq α]
    {d : List (α × β)} {k : α} {v : β}
    (h : List.lookup k d = some v) : k ∈ d.map Prod.fst :=
  List.mem_map.mpr ⟨(k, v), lookup_some_mem h, rfl⟩

lemma lookup_isSome_of_mem {α β : Type} [BEq α] [LawfulBEq α] :
    ∀ {d : List (α × β)} {k : α},
    k ∈ d.map Prod.fst → (List.lookup k d).isSome := by
  intro d
  induction d with
  | nil => intro k h; cases h
  | cons a tl ih =>
      intro k h
      by_cases hk : k = a.1
      · subst hk; simp [List.lookup]
      · have hb : (k == a.1) = false := by simpa using hk
        simp only [List.map_cons, List.mem_cons] at h
        rcases h with h | h
        · exact absurd h hk
        · simp only [List.lookup, hb]
          exact ih h

lemma lookup_append_right {α β : Type} [BEq α] [LawfulBEq α]
    {d e : List (α × β)} {k : α}
    (h : k ∉ d.map Prod.fst) : List.lookup k (d ++ e) = List.lookup k e := by
  rw [List.lookup_append, lookup_eq_none_of_not_mem h, Option.none_or]

lemma lookup_append_left {α β : Type} [BEq α] [LawfulBEq α]
    {d e : List (α × β)} {k : α}
    (h : k ∈ d.map Prod.fst) : List.lookup k (d ++ e) = List.lookup k d := by
  rw [List.lookup_append]
  cases hl : List.lookup k d with
  | some v => rfl
  | none => exact absurd (lookup_isSome_of_mem h) (by simp [hl])

/-! String lemmas separating the keys that make_dict inserts. -/

lemma data_B_append (l : String) : ("B-" ++ l).data = 'B' :: '-' :: l.data := by
  rw [String.data_append]; rfl

lemma data_I_append (l : String) : ("I-" ++ l).data = 'I' :: '-' :: l.data := by
  rw [String.data_append]; rfl

lemma B_append_inj {a b : String} (h : "B-" ++ a = "B-" ++ b) : a = b := by
  have hd := congrArg String.data h
  rw [data_B_append, data_B_append] at hd
  simp only [List.cons.injEq, true_and] at hd
  exact String.ext hd

lemma I_append_inj {a b : String} (h : "I-" ++ a = "I-" ++ b) : a = b := by
  have hd := congrArg String.data h
  rw [data_I_append, data_I_append] at hd
  simp only [List.cons.injEq, true_and] at hd
  exact String.ext hd

lemma B_ne_I (a b : String) : "B-" ++ a ≠ "I-" ++ b := by
  intro h
  have hd := congrArg String.data h
  rw [data_B_append, data_I_append] at hd
  simp only [List.cons.injEq] at hd
  exact absurd hd.1 (by decide)

lemma B_ne_pad (l : String) : "B-" ++ l ≠ "<pad>" := by
  intro h
  have hd := congrArg String.data h
  rw [data_B_append] at hd
  exact absurd (List.cons.injEq .. ▸ hd).1 (by decide)

lemma I_ne_pad (l : String) : "I-" ++ l ≠ "<pad>" := by
  intro h
  have hd := congrArg String.data h
  rw [data_I_append] at hd
  exact absurd (List.cons.injEq .. ▸ hd).1 (by decide)

lemma B_ne_O (l : String) : "B-" ++ l ≠ "O" := by
  intro h
  have hd := congrArg String.data h
  rw [data_B_append] at hd
  exact absurd (List.cons.injEq .. ▸ hd).1 (by decide)

lemma I_ne_O (l : String) : "I-" ++ l ≠ "O" := by
  intro h
  have hd := congrArg String.data h
  rw [data_I_append] at hd
  exact absurd (List.cons.injEq .. ▸ hd).1 (by decide)

/-- Full behaviour of the B- and I- insertion loop of make_dict, by induction
over the (sorted) base-label list: dict size grows by two per label,
keys stay distinct, earlier entries keep their ids, the i-th label's B-
and I- variants receive the two adjacent ids following the prior dict
size, and the ids remain exactly 0,1,...,size-1. -/
lemma addLabels_spec : ∀ (ls : List String) (d : List (String × Nat)),
    (d.map Prod.fst).Nodup →
    (∀ l ∈ ls, ("B-" ++ l) ∉ d.map Prod.fst ∧ ("I-" ++ l) ∉ d.map Prod.fst) →
    ls.Nodup →
    (addLabels d ls).length = d.length + 2 * ls.length ∧
    ((addLabels d ls).map Prod.fst).Nodup ∧
    (∀ k, k ∈ d.map Prod.fst → List.lookup k (addLabels d ls) = List.lookup k d) ∧
    (∀ i (hi : i < ls.length),
      List.lookup ("B-" ++ ls.get ⟨i, hi⟩) (addLabels d ls) = some (d.length + 2 * i) ∧
      List.lookup ("I-" ++ ls.get ⟨i, hi⟩) (addLabels d ls) = some (d.length + 2 * i + 1)) ∧
    (d.map Prod.snd = List.range d.length →
      (addLabels d ls).map Prod.snd = List.range (addLabels d ls).length) := by
  intro ls
  induction ls with
  | nil =>
      intro d hnd _ _
      refine ⟨by simp [addLabels], by simpa [addLabels] using hnd, ?_, ?_, ?_⟩
      · intro k _; rfl
      · intro i hi; cases hi
      · intro h; simpa [addLabels] using h
  | cons a tl ih =>
      intro d hnd hfresh hnodup
      have hBa : ("B-" ++ a) ∉ d.map Prod.fst := (hfresh a (List.mem_cons_self a tl)).1
      have hIa : ("I-" ++ a) ∉ d.map Prod.fst := (hfresh a (List.mem_cons_self a tl)).2
      have hd1 : dictAddLen d ("B-" ++ a) = d ++ [("B-" ++ a, d.length)] :=
        dictAddLen_fresh hBa
      have hkeys1 : (dictAddLen d ("B-" ++ a)).map Prod.fst = d.map Prod.fst ++ ["B-" ++ a] := by
        rw [hd1]; simp
      have hIa1 : ("I-" ++ a) ∉ (dictAddLen d ("B-" ++ a)).map Prod.fst := by
        rw [hkeys1]
        simp only [List.mem_append, List.mem_singleton, not_or]
        exact ⟨hIa, fun h => B_ne_I a a h.symm⟩
      have hlen1 : (dictAddLen d ("B-" ++ a)).length = d.length + 1 := by
        rw [hd1]; simp
      have hd2 : dictAddLen (dictAddLen d ("B-" ++ a)) ("I-" ++ a)
          = d ++ [("B-" ++ a, d.length), ("I-" ++ a, d.length + 1)] := by
        rw [dictAddLen_fresh hIa1, hlen1, hd1, List.append_assoc]
        rfl
      set d2 := d ++ [("B-" ++ a, d.length), ("I-" ++ a, d.length + 1)] with hd2def
      have hstep : addLabels d (a :: tl) = addLabels d2 tl := by
        simp only [addLabels, List.foldl_cons]
        rw [hd2]
      have hkeys2 : d2.map Prod.fst = d.map Prod.fst ++ ["B-" ++ a, "I-" ++ a] := by
        simp [hd2def]
      have hnd2 : (d2.map Prod.fst).Nodup := by
        rw [hkeys2]
        refine List.Nodup.append hnd (by simp [fun h => B_ne_I a a h]) ?_
        intro x hx hy
        simp only [List.mem_cons, List.not_mem_nil, or_false] at hy
        rcases hy with hy | hy
        · exact hBa (hy ▸ hx)
        · exact hIa (hy ▸ hx)
      have hfresh2 : ∀ l ∈ tl, ("B-" ++ l) ∉ d2.map Prod.fst ∧ ("I-" ++ l) ∉ d2.map Prod.fst := by
        intro l hl
        have hla : l ≠ a := fun he => (List.nodup_cons.mp hnodup).1 (he ▸ hl)
        have hfl := hfresh l (List.mem_cons_of_mem a hl)
        rw [hkeys2]
        constructor
        · intro hmem
          rcases List.mem_append.mp hmem with h | h
          · exact hfl.1 h
          · simp only [List.mem_cons, List.not_mem_nil, or_false] at h
            rcases h with h | h
            · exact hla (B_append_inj h)
            · exact B_ne_I l a h
        · intro hmem
          rcases List.mem_append.mp hmem with h | h
          · exact hfl.2 h
          · simp only [List.mem_cons, List.not_mem_nil, or_false] at h
            rcases h with h | h
            · exact B_ne_I a l h.symm
            · exact hla (I_append_inj h)
      have hlen2 : d2.length = d.length + 2 := by simp [hd2def]
      obtain ⟨ihlen, ihnd, ihpres, ihnew, ihrange⟩ :=
        ih d2 hnd2 hfresh2 (List.nodup_cons.mp hnodup).2
      rw [hstep]
      refine ⟨?_, ihnd, ?_, ?_, ?_⟩
      · rw [ihlen, hlen2]
        simp [Nat.mul_add, Nat.add_assoc, Nat.add_comm, Nat.add_left_comm, Nat.mul_succ]
      · intro k hk
        rw [ihpres k (by rw [hkeys2]; exact List.mem_append_left _ hk)]
        exact lookup_append_left hk
      · intro i hi
        cases i with
        | zero =>
            have hBmem : ("B-" ++ a) ∈ d2.map Prod.fst := by
              rw [hkeys2]; simp
            have hImem : ("I-" ++ a) ∈ d2.map Prod.fst := by
              rw [hkeys2]; simp
            constructor
            · rw [List.get]
              rw [ihpres _ hBmem, hd2def, lookup_append_right hBa]
              simp [List.lookup]
            · rw [List.get]
              rw [ihpres _ hImem, hd2def, lookup_append_right hIa]
              have hne : (("I-" ++ a) == ("B-" ++ a)) = false := by
                simpa using fun h => B_ne_I a a h.symm
              simp [List.lookup, hne]
        | succ j =>
            have hj : j < tl.length := Nat.lt_of_succ_lt_succ hi
            have hget : (a :: tl).get ⟨j + 1, hi⟩ = tl.get ⟨j, hj⟩ := rfl
            obtain ⟨hB, hI⟩ := ihnew j hj
            rw [hget]
            constructor
            · rw [hB, hlen2]
              congr 1
              ring
            · rw [hI, hlen2]
              congr 1
              ring
      · intro hrange
        refine ihrange ?_
        have : d2.map Prod.snd = List.range d.length ++ [d.length, d.length + 1] := by
          simp [hd2def, hrange]
        rw [this, hlen2]
        rw [List.range_succ, List.range_succ, List.append_assoc]
        rfl

/-- When both the keys and the values of an association list are
duplicate-free, looking up a key is equivalent to looking up its value
in the reversed-pair list. -/
lemma lookup_swap_iff : ∀ {d : List (String × Nat)},
    (d.map Prod.fst).Nodup → (d.map Prod.snd).Nodup →
    ∀ (k : String) (v : Nat),
      List.lookup k d = some v ↔ List.lookup v (id2label_of d) = some k := by
  intro d
  induction d with
  | nil => intro _ _ k v; simp [id2label_of]
  | cons a tl ih =>
      intro hnf hns k v
      simp only [List.map_cons, List.nodup_cons] at hnf hns
      have hswap : id2label_of (a :: tl) = (a.2, a.1) :: id2label_of tl := rfl
      by_cases hk : k = a.1
      · subst hk
        by_cases hv : v = a.2
        · subst hv
          simp [List.lookup, hswap]
        · have hbv : (v == a.2) = false := by simpa using hv
          rw [hswap]
          simp only [List.lookup, beq_self_eq_true, hbv]
          constructor
          · intro h
            cases h
            exact absurd rfl hv
          · intro h
            obtain ⟨p, hp, he⟩ := List.mem_map.mp (lookup_some_mem h)
            have he1 : p.2 = v ∧ p.1 = a.1 := by
              simpa [Prod.mk.injEq] using he
            have : a.1 ∈ tl.map Prod.fst :=
              List.mem_map.mpr ⟨p, hp, he1.2⟩
            exact absurd this hnf.1
      · have hbk : (k == a.1) = false := by simpa using hk
        by_cases hv : v = a.2
        · subst hv
          rw [hswap]
          simp only [List.lookup, hbk, beq_self_eq_true]
          constructor
          · intro h
            have : a.2 ∈ tl.map Prod.snd :=
              List.mem_map.mpr ⟨(k, a.2), lookup_some_mem h, rfl⟩
            exact absurd this hns.1
          · intro h
            cases h
            exact absurd rfl hk
        · have hbv : (v == a.2) = false := by simpa using hv
          rw [hswap]
          simp only [List.lookup, hbk, hbv]
          exact ih hnf.2 hns.2 k v

/-- C4: make_dict builds label2id with the pad label at id 0 and O at
id 1, followed, for each base label in sorted order, by its B- and I-
variants at adjacent ids, so that label2id contains exactly
2 + 2 * number-of-base-labels entries, id2label is a perfect inverse,
and the base set NOUN, VERB yields exactly pad 0, O 1, B-NOUN 2,
I-NOUN 3, B-VERB 4, I-VERB 5. -/
theorem C4_label_taxonomy (label_list : Option (List String))
    (train_y dev_y test_y : List (List String))
    (hnd : (gather_label_set label_list train_y dev_y test_y).Nodup) :
    (make_label2id label_list train_y dev_y test_y).length
        = 2 + 2 * (gather_label_set label_list train_y dev_y test_y).length ∧
    List.lookup "<pad>" (make_label2id label_list train_y dev_y test_y) = some 0 ∧
    List.lookup "O" (make_label2id label_list train_y dev_y test_y) = some 1 ∧
    (∀ i (hi : i < (List.insertionSort pyStrLe
        (gather_label_set label_list train_y dev_y test_y)).length),
      List.lookup ("B-" ++ (List.insertionSort pyStrLe
          (gather_label_set label_list train_y dev_y test_y)).get ⟨i, hi⟩)
          (make_label2id label_list train_y dev_y test_y) = some (2 + 2 * i) ∧
      List.lookup ("I-" ++ (List.insertionSort pyStrLe
          (gather_label_set label_list train_y dev_y test_y)).get ⟨i, hi⟩)
          (make_label2id label_list train_y dev_y test_y) = some (2 + 2 * i + 1)) ∧
    (∀ (k : String) (v : Nat),
      List.lookup k (make_label2id label_list train_y dev_y test_y) = some v ↔
      List.lookup v (id2label_of (make_label2id label_list train_y dev_y test_y)) = some k) ∧
    make_label2id (some ["NOUN", "VERB"]) [] [] []
        = [("<pad>", 0), ("O", 1), ("B-NOUN", 2), ("I-NOUN", 3), ("B-VERB", 4), ("I-VERB", 5)] := by
  have hdef : make_label2id label_list train_y dev_y test_y
      = addLabels [("<pad>", 0), ("O", 1)]
        (List.insertionSort pyStrLe (gather_label_set label_list train_y dev_y test_y)) := rfl
  set S := List.insertionSort pyStrLe (gather_label_set label_list train_y dev_y test_y) with hS
  have hperm : S.Perm (gather_label_set label_list train_y dev_y test_y) :=
    List.perm_insertionSort pyStrLe _
  have hSnd : S.Nodup := hperm.nodup_iff.mpr hnd
  have hlenS : S.length = (gather_label_set label_list train_y dev_y test_y).length :=
    hperm.length_eq
  have hfresh : ∀ l ∈ S,
      ("B-" ++ l) ∉ ([("<pad>", 0), ("O", 1)] : List (String × Nat)).map Prod.fst ∧
      ("I-" ++ l) ∉ ([("<pad>", 0), ("O", 1)] : List (String × Nat)).map Prod.fst := by
    intro l _
    constructor
    · intro hmem
      simp only [List.map_cons, List.map_nil, List.mem_cons,
        List.not_mem_nil, or_false] at hmem
      rcases hmem with h | h
      · exact B_ne_pad l h
      · exact B_ne_O l h
    · intro hmem
      simp only [List.map_cons, List.map_nil, List.mem_cons,
        List.not_mem_nil, or_false] at hmem
      rcases hmem with h | h
      · exact I_ne_pad l h
      · exact I_ne_O l h
  obtain ⟨hlen, hkeysnd, hpres, hnew, hrange⟩ :=
    addLabels_spec S [("<pad>", 0), ("O", 1)] (by decide) hfresh hSnd
  have hsndnd : ((addLabels [("<pad>", 0), ("O", 1)] S).map Prod.snd).Nodup := by
    rw [hrange (by decide)]
    exact List.nodup_range _
  refine ⟨?_, ?_, ?_, ?_, ?_, ?_⟩
  · rw [hdef, hlen, hlenS]
    rfl
  · rw [hdef, hpres "<pad>" (by decide)]
    rfl
  · rw [hdef, hpres "O" (by decide)]
    rfl
  · intro i hi
    have := hnew i hi
    rw [hdef]
    exact this
  · intro k v
    rw [hdef]
    exact lookup_swap_iff hkeysnd hsndnd k v
  · decide

/-- Witness for C4: the Nodup hypothesis holds for the concrete base set
NOUN, VERB, at which the dict has 2 + 2 * 2 = 6 entries. -/
theorem C4_label_taxonomy_witness :
    (gather_label_set (some ["NOUN", "VERB"]) [] [] []).Nodup ∧
    (make_label2id (some ["NOUN", "VERB"]) [] [] []).length = 6 :=
  ⟨by decide, (C4_label_taxonomy (some ["NOUN", "VERB"]) [] [] [] (by decide)).1⟩

/-! The epoch loop of train_and_test / train_model.  Validation and test
F1 scores are modelled as rationals.  An epoch is represented by the pair
(validation F1 of that epoch, test F1 that the test evaluation would
report if it were run that epoch). -/

/-- Initial best_valid and test_result in train_and_test: -1e8. -/
def initScore : ℚ := -(10 ^ 8)

/-- The checkpoint decision at the end of train_model: the returned
(best_valid, test_f1_score) pair together with whether torch.save ran. -/
def checkpoint_step (best_valid test_f1 dev_f1 new_test : ℚ) : ℚ × ℚ × Bool :=
  if best_valid < dev_f1 then (dev_f1, new_test, true) else (best_valid, test_f1, false)

/-- The epoch loop of train_and_test, threading (best_valid, test_result)
through train_model. -/
def train_run (best test : ℚ) : List (ℚ × ℚ) → ℚ × ℚ
  | [] => (best, test)
  | e :: rest =>
      let s := checkpoint_step best test e.1 e.2
      train_run s.1 s.2.1 rest

/-- The (best_valid, test_result) state after the first k epochs. -/
def run_state (evals : List (ℚ × ℚ)) (k : Nat) : ℚ × ℚ :=
  train_run initScore initScore (evals.take k)

/-- Whether epoch k (re)writes the model checkpoint file. -/
def wroteAt (evals : List (ℚ × ℚ)) (k : Nat) : Bool :=
  (checkpoint_step (run_state evals k).1 (run_state evals k).2
    (evals.getD k (0, 0)).1 (evals.getD k (0, 0)).2).2.2

lemma train_run_fst (l : List (ℚ × ℚ)) : ∀ b t : ℚ,
    (train_run b t l).1 = l.foldl (fun a e => max a e.1) b := by
  induction l with
  | nil => intro b t; rfl
  | cons e rest ih =>
      intro b t
      simp only [train_run, checkpoint_step, List.foldl_cons]
      by_cases h : b < e.1
      · rw [if_pos h, ih, max_eq_right h.le]
      · rw [if_neg h, ih, max_eq_left (not_lt.mp h)]

lemma foldl_max_lt_iff (l : List (ℚ × ℚ)) : ∀ (b c : ℚ),
    l.foldl (fun a e => max a e.1) b < c ↔ b < c ∧ ∀ x ∈ l, x.1 < c := by
  induction l with
  | nil => intro b c; simp
  | cons e rest ih =>
      intro b c
      rw [List.foldl_cons, ih, max_lt_iff]
      constructor
      · rintro ⟨⟨hb, he⟩, hr⟩
        refine ⟨hb, ?_⟩
        intro x hx
        rcases List.mem_cons.mp hx with h | h
        · rw [h]; exact he
        · exact hr x h
      · rintro ⟨hb, hall⟩
        exact ⟨⟨hb, hall e (List.mem_cons_self e rest)⟩,
          fun x hx => hall x (List.mem_cons_of_mem e hx)⟩

lemma train_run_append (l1 l2 : List (ℚ × ℚ)) : ∀ b t : ℚ,
    train_run b t (l1 ++ l2)
      = train_run (train_run b t l1).1 (train_run b t l1).2 l2 := by
  induction l1 with
  | nil => intro b t; rfl
  | cons e rest ih =>
      intro b t
      simp only [List.cons_append, train_run]
      exact ih _ _

lemma getD_mem {α : Type} (l : List α) (j : Nat) (d : α) (h : j < l.length) :
    l.getD j d ∈ l := by
  rw [List.getD_eq_getElem _ _ h]
  exact List.getElem_mem h

lemma run_state_succ (evals : List (ℚ × ℚ)) (k : Nat) (hk : k < evals.length) :
    run_state evals (k + 1)
      = train_run (run_state evals k).1 (run_state evals k).2 [evals.getD k (0, 0)] := by
  unfold run_state
  rw [List.take_succ, List.getElem?_eq_getElem hk, Option.toList_some, train_run_append,
    List.getD_eq_getElem _ _ hk]

lemma run_state_succ_of_le (evals : List (ℚ × ℚ)) (k : Nat) (hk : evals.length ≤ k) :
    run_state evals (k + 1) = run_state evals k := by
  unfold run_state
  rw [List.take_of_length_le hk, List.take_of_length_le (hk.trans (Nat.le_succ k))]

/-- C1: across the epoch loop, the recorded best validation F1 is
non-decreasing; the model checkpoint file is (re)written in an epoch iff
that epoch's validation F1 strictly exceeds every previous epoch's
validation F1; on such an improvement the test evaluation of that epoch
becomes the reported test figure, and on a non-improving epoch the
state (best F1 and reported test figure) is returned unchanged.  The
hypothesis says every validation F1 exceeds the -1e8 sentinel, which
holds of any genuine (non-negative) F1 percentage. -/
theorem C1_best_checkpoint_monotone (evals : List (ℚ × ℚ))
    (hpos : ∀ p ∈ evals, initScore < p.1) :
    (∀ k, (run_state evals k).1 ≤ (run_state evals (k + 1)).1) ∧
    (∀ k, k < evals.length →
      (wroteAt evals k = true ↔
        ∀ j, j < k → (evals.getD j (0, 0)).1 < (evals.getD k (0, 0)).1)) ∧
    (∀ k, k < evals.length → wroteAt evals k = true →
      (run_state evals (k + 1)).2 = (evals.getD k (0, 0)).2) ∧
    (∀ k, k < evals.length → wroteAt evals k = false →
      run_state evals (k + 1) = run_state evals k) := by
  have hwrote : ∀ k, wroteAt evals k = true ↔
      (run_state evals k).1 < (evals.getD k (0, 0)).1 := by
    intro k
    unfold wroteAt checkpoint_step
    by_cases h : (run_state evals k).1 < (evals.getD k (0, 0)).1
    · rw [if_pos h]; simpa using h
    · rw [if_neg h]; simpa using h
  refine ⟨?_, ?_, ?_, ?_⟩
  · intro k
    rcases Nat.lt_or_ge k evals.length with hk | hk
    · rw [run_state_succ evals k hk]
      unfold train_run checkpoint_step
      by_cases h : (run_state evals k).1 < (evals.getD k (0, 0)).1
      · rw [if_pos h]; exact h.le
      · rw [if_neg h]; exact le_refl _
    · rw [run_state_succ_of_le evals k hk]
  · intro k hk
    rw [hwrote k]
    unfold run_state
    rw [train_run_fst, foldl_max_lt_iff]
    constructor
    · rintro ⟨_, hall⟩ j hj
      refine hall (evals.getD j (0, 0)) ?_
      have hjlen : j < evals.length := hj.trans hk
      have hjtake : j < (evals.take k).length := by
        rw [List.length_take]
        exact lt_min hj hjlen
      have : (evals.take k).getD j (0, 0) = evals.getD j (0, 0) := by
        rw [List.getD_eq_getElem _ _ hjtake, List.getElem_take, List.getD_eq_getElem _ _ hjlen]
      rw [← this]
      exact getD_mem _ j (0, 0) hjtake
    · intro hall
      refine ⟨hpos _ (getD_mem evals k (0, 0) hk), ?_⟩
      intro x hx
      obtain ⟨j, hj, hx⟩ := List.getElem_of_mem hx
      have hjk : j < k := by
        have := hj
        rw [List.length_take] at this
        exact lt_of_lt_of_le this (min_le_left _ _)
      have hjlen : j < evals.length := hjk.trans hk
      have : x = evals.getD j (0, 0) := by
        rw [← hx, List.getD_eq_getElem _ _ hjlen, List.getElem_take]
      rw [this]
      exact hall j hjk
  · intro k hk hw
    rw [run_state_succ evals k hk]
    unfold train_run checkpoint_step
    rw [if_pos ((hwrote k).mp hw)]
    rfl
  · intro k hk hw
    rw [run_state_succ evals k hk]
    unfold train_run checkpoint_step
    have h : ¬ (run_state evals k).1 < (evals.getD k (0, 0)).1 := by
      intro hc
      rw [(hwrote k).mpr hc] at hw
      cases hw
    rw [if_neg h]
    rfl

/-- Witness for C1 at the concrete run with validation F1s 70, 72, 72, 68:
every score beats the -1e8 sentinel, and the recorded best is
non-decreasing across the four epochs. -/
theorem C1_best_checkpoint_monotone_witness :
    (∀ p ∈ ([(70, 50), (72, 60), (72, 65), (68, 70)] : List (ℚ × ℚ)), initScore < p.1) ∧
    ∀ k, (run_state [(70, 50), (72, 60), (72, 65), (68, 70)] k).1
        ≤ (run_state [(70, 50), (72, 60), (72, 65), (68, 70)] (k + 1)).1 :=
  ⟨by decide, (C1_best_checkpoint_monotone _ (by decide)).1⟩

/-! Artifact files written by train_and_test, in program order. -/

/-- The four artifact files of the checkpoint directory. -/
inductive Artifact : Type
  | word2idFile
  | label2idFile
  | configFile
  | modelFile
deriving DecidableEq

/-- The model-parameter writes performed across the epoch loop: epoch by
epoch, torch.save fires exactly when the checkpoint decision improves. -/
def epochArtifactWrites (best test : ℚ) : List (ℚ × ℚ) → List Artifact
  | [] => []
  | e :: rest =>
      let s := checkpoint_step best test e.1 e.2
      (if s.2.2 then [Artifact.modelFile] else []) ++ epochArtifactWrites s.1 s.2.1 rest

/-- The file writes of a whole train_and_test run, in order: word2id.dict,
label2id.dict and config.dict are dumped once before the epoch loop,
and the epoch loop then writes model.pl on each strict improvement. -/
def train_and_test_writes (evals : List (ℚ × ℚ)) : List Artifact :=
  [Artifact.word2idFile, Artifact.label2idFile, Artifact.configFile]
    ++ epochArtifactWrites initScore initScore evals

/-- The number of strictly-improving epochs of a run. -/
def countImprovements (best : ℚ) : List ℚ → Nat
  | [] => 0
  | d :: rest => (if best < d then 1 else 0) + countImprovements (max best d) rest

lemma epochArtifactWrites_eq (l : List (ℚ × ℚ)) : ∀ b t : ℚ,
    epochArtifactWrites b t l
      = List.replicate (countImprovements b (l.map Prod.fst)) Artifact.modelFile := by
  induction l with
  | nil => intro b t; rfl
  | cons e rest ih =>
      intro b t
      simp only [epochArtifactWrites, checkpoint_step, List.map_cons, countImprovements]
      by_cases h : b < e.1
      · simp only [if_pos h]
        show [Artifact.modelFile] ++ epochArtifactWrites e.1 e.2 rest = _
        rw [ih, max_eq_right h.le, Nat.add_comm 1, List.replicate_succ]
        rfl
      · simp only [if_neg h]
        show [] ++ epochArtifactWrites b t rest = _
        rw [ih, max_eq_left (not_lt.mp h), Nat.zero_add]
        rfl

/-- C9 counterexample: in a run with no improving epoch the artifact
directory receives the configuration files but never the model-parameter
file, so it does hold a configuration lacking its model parameters,
contradicting the claimed all-four-at-once atomic persistence. -/
theorem C9_counterexample :
    Artifact.configFile ∈ train_and_test_writes [] ∧
    Artifact.modelFile ∉ train_and_test_writes [] := by
  decide

/-- C9 amended: word2id, label2id and the run configuration are persisted
once, before the epoch loop; the model-parameter file is written
separately, once per strictly-improving epoch, so a run with no
improvement leaves the directory with configuration but no parameters. -/
theorem C9_artifact_writes (evals : List (ℚ × ℚ)) :
    train_and_test_writes evals
      = [Artifact.word2idFile, Artifact.label2idFile, Artifact.configFile]
        ++ List.replicate (countImprovements initScore (evals.map Prod.fst))
            Artifact.modelFile := by
  unfold train_and_test_writes
  rw [epochArtifactWrites_eq]

/-! Batch construction: create_one_batch and create_batches. -/

/-- Comparator of the index sorts in create_one_batch and create_batches:
indices ordered by descending length of the corresponding example.  A
stable insertion sort models Python's stable sorted / list.sort with
key minus-length. -/
def descLenRel (x : List (List String)) (a b : Nat) : Prop :=
  (x.getD b []).length ≤ (x.getD a []).length

instance (x : List (List String)) : DecidableRel (descLenRel x) := fun a b =>
  inferInstanceAs (Decidable ((x.getD b []).length ≤ (x.getD a []).length))

/-- The index list lst of create_one_batch (source lines 131-133):
range(batch_size), sorted in place by descending example length when
sort is set. -/
def cob_lst (x : List (List String)) (sort : Bool) : List Nat :=
  if sort then List.insertionSort (descLenRel x) (List.range x.length)
  else List.range x.length

/-- The reassigned x of create_one_batch (source line 135). -/
def cob_xs (x : List (List String)) (sort : Bool) : List (List String) :=
  (cob_lst x sort).map (fun i => x.getD i [])

/-- The lens list of create_one_batch (source line 137).  Note that the
source indexes the already-permuted x by the sort indices a second
time; this is modelled exactly. -/
def cob_lens (x : List (List String)) (sort : Bool) : List Nat :=
  (cob_lst x sort).map (fun i => ((cob_xs x sort).getD i []).length)

/-- create_one_batch: sorts the batch's examples by descending length,
maps tokens to ids with the out-of-vocabulary fallback, maps tags to ids
(a tag missing from label2id raises KeyError, modelled as none), and
right-pads both id matrices to the longest length in the batch with the
pad ids.  The result is none exactly when Python raises: a missing
reserved token (failed assert or pad fill), an empty batch (max of an
empty list), a y list shorter than x (IndexError on y[i]), a y row
longer than the padded width or a missing tag (errors in the batch_y
fill loop). -/
def create_one_batch (x y : List (List String)) (word2id label2id : List (String × Nat))
    (sort : Bool := true) (oov : String := "<oov>") (pad : String := "<pad>")
    (label_pad : String := "<pad>") :
    Option (List (List Nat) × List (List Nat) × List Nat) := do
  let xs := cob_xs x sort
  let ys ← (cob_lst x sort).mapM (fun i => y.get? i)
  let lens := cob_lens x sort
  let max_len ← lens.max?
  let oov_id ← List.lookup oov word2id
  let pad_id ← List.lookup pad word2id
  let label_pad_id ← List.lookup label_pad label2id
  let batch_x := xs.map (fun xi =>
    xi.map (fun w => (List.lookup w word2id).getD oov_id)
      ++ List.replicate (max_len - xi.length) pad_id)
  if ys.all (fun yi => yi.length ≤ max_len) then
    let yids ← ys.mapM (fun yi => yi.mapM (fun t => List.lookup t label2id))
    let batch_y := yids.map (fun r => r ++ List.replicate (max_len - r.length) label_pad_id)
    some (batch_x, batch_y, lens)
  else none

/-- create_batches: shuffles example indices (the random.shuffle outcome
is the shufflePerm parameter), optionally length-sorts them, slices the
reordered corpus into ceil(n over batch_size) contiguous chunks, builds
one padded batch per chunk via create_one_batch, and, when sort is set,
reorders whole batches by the shuffled position list posPerm (the
random.shuffle of range(nbatch)).  Source lines 189 and 191 are modelled
exactly: the text-batch list is indexed with pos_lst unconditionally
(an IndexError when text is absent, hence none), and is then permuted by
pos_lst a second time when text is present. -/
def create_batches_core (x y : List (List String)) (batch_size : Nat)
    (word2id label2id : List (String × Nat)) (sort : Bool)
    (text : Option (List (List String))) (posPerm : List Nat) (lst : List Nat) :
    Option (List (List (List Nat)) × List (List (List Nat)) × List (List Nat)
      × Option (List (List (List String)))) := do
  let xs := lst.map (fun i => x.getD i [])
  let ys ← lst.mapM (fun i => y.get? i)
  let texts ← (match text with
    | some t => (lst.mapM (fun i => t.get? i)).map (fun tt => some tt)
    | none => some none)
  let nbatch := (xs.length - 1) / batch_size + 1
  let results ← (List.range nbatch).mapM (fun i =>
    create_one_batch ((xs.drop (i * batch_size)).take batch_size)
      ((ys.drop (i * batch_size)).take batch_size) word2id label2id sort)
  let batches_x := results.map (fun r => r.1)
  let batches_y := results.map (fun r => r.2.1)
  let batches_lens := results.map (fun r => r.2.2)
  let batches_text := (match texts with
    | some tt => (List.range nbatch).map (fun i => (tt.drop (i * batch_size)).take batch_size)
    | none => [])
  if sort then do
    let bx ← posPerm.mapM (fun i => batches_x.get? i)
    let by2 ← posPerm.mapM (fun i => batches_y.get? i)
    let bt ← posPerm.mapM (fun i => batches_text.get? i)
    let blens ← posPerm.mapM (fun i => batches_lens.get? i)
    let bt2 ← (match texts with
      | some _ => (posPerm.mapM (fun i => bt.get? i)).map (fun tt => some tt)
      | none => some none)
    some (bx, by2, blens, bt2)
  else
    some (batches_x, batches_y, batches_lens,
      match texts with
      | some _ => some batches_text
      | none => none)

def create_batches (x y : List (List String)) (batch_size : Nat)
    (word2id label2id : List (String × Nat)) (sort shuffle : Bool)
    (text : Option (List (List String))) (shufflePerm posPerm : List Nat) :
    Option (List (List (List Nat)) × List (List (List Nat)) × List (List Nat)
      × Option (List (List (List String)))) :=
  if batch_size = 0 then none else
  let lst0 := if shuffle then shufflePerm else List.range x.length
  let lst := if sort then List.insertionSort (descLenRel x) lst0 else lst0
  create_batches_core x y batch_size word2id label2id sort text posPerm lst

/-! Generic list lemmas used by the batching proofs. -/

lemma mapM_eq_map_of_forall {α β : Type} (f : α → Option β) (g : α → β) :
    ∀ l : List α, (∀ a ∈ l, f a = some (g a)) → l.mapM f = some (l.map g) := by
  intro l
  induction l with
  | nil => intro _; rfl
  | cons a tl ih =>
      intro h
      rw [List.mapM_cons, h a (List.mem_cons_self a tl),
        ih (fun b hb => h b (List.mem_cons_of_mem a hb))]
      rfl

lemma map_getD_range {α : Type} (l : List α) (d : α) :
    (List.range l.length).map (fun i => l.getD i d) = l := by
  apply List.ext_getElem
  · simp
  · intro i h1 h2
    have hi : i < l.length := by simpa using h2
    have hr : i < (List.range l.length).length := by simpa using hi
    rw [List.getElem_map, List.getElem_range, List.getD_eq_getElem _ _ hi]

lemma perm_map_getD {α : Type} {p : List Nat} {l : List α} (d : α)
    (hp : p.Perm (List.range l.length)) :
    (p.map (fun i => l.getD i d)).Perm l := by
  have h := hp.map (fun i => l.getD i d)
  rw [map_getD_range] at h
  exact h

lemma mem_lt_of_perm_range {p : List Nat} {n : Nat} (hp : p.Perm (List.range n)) :
    ∀ i ∈ p, i < n := fun i hi => List.mem_range.mp (hp.subset hi)

lemma get?_eq_getD {α : Type} (l : List α) (i : Nat) (d : α) (h : i < l.length) :
    l.get? i = some (l.getD i d) := by
  rw [List.getD_eq_getElem _ _ h, List.get?_eq_getElem?, List.getElem?_eq_getElem h]

lemma getD_map_of_lt {α β : Type} (f : α → β) (l : List α) (i : Nat)
    (h : i < l.length) (d : α) (e : β) :
    (l.map f).getD i e = f (l.getD i d) := by
  have hm : i < (l.map f).length := by simpa using h
  rw [List.getD_eq_getElem _ _ hm, List.getElem_map, List.getD_eq_getElem _ _ h]

lemma foldl_max_spec (as : List ℕ) : ∀ a : ℕ,
    (as.foldl max a = a ∨ as.foldl max a ∈ as) ∧
    a ≤ as.foldl max a ∧ ∀ e ∈ as, e ≤ as.foldl max a := by
  induction as with
  | nil =>
      intro a
      exact ⟨Or.inl rfl, le_refl a, fun e he => absurd he (List.not_mem_nil e)⟩
  | cons b tl ih =>
      intro a
      obtain ⟨hmem, hle, hall⟩ := ih (max a b)
      rw [List.foldl_cons]
      refine ⟨?_, le_trans (le_max_left a b) hle, ?_⟩
      · rcases hmem with h | h
        · rcases max_choice a b with hc | hc
          · exact Or.inl (h.trans hc)
          · exact Or.inr (by rw [h, hc]; exact List.mem_cons_self b tl)
        · exact Or.inr (List.mem_cons_of_mem b h)
      · intro e he
        rcases List.mem_cons.mp he with h | h
        · rw [h]; exact le_trans (le_max_right a b) hle
        · exact hall e h

lemma max?_spec (l : List ℕ) (hl : l ≠ []) :
    ∃ m, l.max? = some m ∧ m ∈ l ∧ ∀ e ∈ l, e ≤ m := by
  cases l with
  | nil => exact absurd rfl hl
  | cons a as =>
      obtain ⟨hmem, hle, hall⟩ := foldl_max_spec as a
      refine ⟨as.foldl max a, rfl, ?_, ?_⟩
      · rcases hmem with h | h
        · rw [h]; exact List.mem_cons_self a as
        · exact List.mem_cons_of_mem a h
      · intro e he
        rcases List.mem_cons.mp he with h | h
        · rw [h]; exact hle
        · exact hall e h

lemma cob_lst_perm (x : List (List String)) (sort : Bool) :
    (cob_lst x sort).Perm (List.range x.length) := by
  unfold cob_lst
  cases sort
  · exact List.Perm.refl _
  · exact List.perm_insertionSort _ _

lemma cob_xs_perm (x : List (List String)) (sort : Bool) :
    (cob_xs x sort).Perm x :=
  perm_map_getD [] (cob_lst_perm x sort)

lemma cob_xs_length (x : List (List String)) (sort : Bool) :
    (cob_xs x sort).length = x.length :=
  (cob_xs_perm x sort).length_eq

lemma cob_lst_length (x : List (List String)) (sort : Bool) :
    (cob_lst x sort).length = x.length := by
  rw [(cob_lst_perm x sort).length_eq, List.length_range]

lemma cob_lens_perm (x : List (List String)) (sort : Bool) :
    (cob_lens x sort).Perm (x.map (fun e => e.length)) := by
  have h1 : cob_lens x sort
      = (cob_lst x sort).map (fun i => ((cob_xs x sort).map List.length).getD i 0) := by
    unfold cob_lens
    refine List.map_congr_left ?_
    intro i hi
    have hlt : i < (cob_xs x sort).length := by
      rw [cob_xs_length]
      exact mem_lt_of_perm_range (cob_lst_perm x sort) i hi
    rw [getD_map_of_lt List.length _ i hlt []]
  have h2 : ((cob_lst x sort).map
      (fun i => ((cob_xs x sort).map List.length).getD i 0)).Perm
        ((cob_xs x sort).map List.length) := by
    refine perm_map_getD 0 ?_
    rw [List.length_map, cob_xs_length]
    exact cob_lst_perm x sort
  rw [h1]
  exact h2.trans ((cob_xs_perm x sort).map List.length)

lemma cob_lens_length (x : List (List String)) (sort : Bool) :
    (cob_lens x sort).length = x.length := by
  rw [(cob_lens_perm x sort).length_eq, List.length_map]

/-- The reassigned y of create_one_batch (source line 136), valid when no
IndexError occurs. -/
def cob_ys (x y : List (List String)) (sort : Bool) : List (List String) :=
  (cob_lst x sort).map (fun i => y.getD i [])

lemma cob_ys_perm (x y : List (List String)) (sort : Bool) (h : y.length = x.length) :
    (cob_ys x y sort).Perm y := by
  refine perm_map_getD [] ?_
  rw [h]
  exact cob_lst_perm x sort

lemma padded_row_spec {β : Type} (core : List β) (padv : β) (m : Nat)
    (hle : core.length ≤ m) (dflt : β) :
    (core ++ List.replicate (m - core.length) padv).length = m ∧
    (∀ j, j < core.length →
      (core ++ List.replicate (m - core.length) padv).getD j dflt = core.getD j dflt) ∧
    (∀ j, core.length ≤ j → j < m →
      (core ++ List.replicate (m - core.length) padv).getD j dflt = padv) := by
  have hlen : (core ++ List.replicate (m - core.length) padv).length = m := by
    rw [List.length_append, List.length_replicate, Nat.add_sub_cancel' hle]
  refine ⟨hlen, ?_, ?_⟩
  · intro j hj
    have hj2 : j < (core ++ List.replicate (m - core.length) padv).length := by
      rw [hlen]; exact lt_of_lt_of_le hj hle
    rw [List.getD_eq_getElem _ _ hj2, List.getElem_append_left hj,
      List.getD_eq_getElem _ _ hj]
  · intro j hj1 hj2
    have hj3 : j < (core ++ List.replicate (m - core.length) padv).length := by
      rw [hlen]; exact hj2
    rw [List.getD_eq_getElem _ _ hj3, List.getElem_append_right hj1,
      List.getElem_replicate]

/-- Success and full per-position description of create_one_batch on a
well-formed batch: x nonempty, y parallel to x, the reserved tokens
present, every tag known.  The returned token matrix holds looked-up ids
(out-of-vocabulary fallback) on positions below the row's example length
and the pad id from there to the batch maximum length; the label matrix
likewise holds looked-up tag ids then the pad-label id. -/
lemma create_one_batch_sound (x y : List (List String)) (word2id label2id : List (String × Nat))
    (sort : Bool) (oov_id pad_id label_pad_id : Nat)
    (hx : x ≠ [])
    (hylen : y.length = x.length)
    (hrow : ∀ i, i < x.length → (y.getD i []).length = (x.getD i []).length)
    (hoov : List.lookup "<oov>" word2id = some oov_id)
    (hpad : List.lookup "<pad>" word2id = some pad_id)
    (hlpad : List.lookup "<pad>" label2id = some label_pad_id)
    (htags : ∀ yi ∈ y, ∀ t ∈ yi, t ∈ label2id.map Prod.fst) :
    ∃ bx by2 max_len,
      create_one_batch x y word2id label2id sort = some (bx, by2, cob_lens x sort) ∧
      (cob_lens x sort).max? = some max_len ∧
      (∀ e ∈ x, e.length ≤ max_len) ∧
      bx.length = x.length ∧ by2.length = x.length ∧
      (∀ i, i < x.length →
        (bx.getD i []).length = max_len ∧
        (by2.getD i []).length = max_len ∧
        ((cob_ys x y sort).getD i []).length = ((cob_xs x sort).getD i []).length ∧
        (∀ j, j < ((cob_xs x sort).getD i []).length →
          (bx.getD i []).getD j 0
            = (List.lookup (((cob_xs x sort).getD i []).getD j "") word2id).getD oov_id) ∧
        (∀ j, ((cob_xs x sort).getD i []).length ≤ j → j < max_len →
          (bx.getD i []).getD j 0 = pad_id) ∧
        (∀ j, j < ((cob_ys x y sort).getD i []).length →
          List.lookup (((cob_ys x y sort).getD i []).getD j "") label2id
            = some ((by2.getD i []).getD j 0)) ∧
        (∀ j, ((cob_ys x y sort).getD i []).length ≤ j → j < max_len →
          (by2.getD i []).getD j 0 = label_pad_id)) := by
  have hlstlt : ∀ i ∈ cob_lst x sort, i < x.length :=
    mem_lt_of_perm_range (cob_lst_perm x sort)
  have hys : (cob_lst x sort).mapM (fun i => y.get? i) = some (cob_ys x y sort) := by
    refine mapM_eq_map_of_forall _ _ _ ?_
    intro i hi
    exact get?_eq_getD y i [] (by rw [hylen]; exact hlstlt i hi)
  have hlensne : cob_lens x sort ≠ [] := by
    intro h
    have hc := cob_lens_length x sort
    rw [h] at hc
    exact hx (List.length_eq_zero.mp hc.symm)
  obtain ⟨max_len, hmax, _, hmaxall⟩ := max?_spec (cob_lens x sort) hlensne
  have hxbound : ∀ e ∈ x, e.length ≤ max_len := by
    intro e he
    refine hmaxall e.length ((cob_lens_perm x sort).mem_iff.mpr ?_)
    exact List.mem_map.mpr ⟨e, he, rfl⟩
  have hysrow : ∀ i, i < x.length →
      ((cob_ys x y sort).getD i []).length = ((cob_xs x sort).getD i []).length := by
    intro i hi
    have hic : i < (cob_lst x sort).length := by rw [cob_lst_length]; exact hi
    have hidx : (cob_lst x sort).getD i 0 < x.length :=
      hlstlt _ (getD_mem _ i 0 hic)
    unfold cob_ys cob_xs
    rw [getD_map_of_lt _ _ i hic 0, getD_map_of_lt _ _ i hic 0]
    exact hrow _ hidx
  have hguard : (cob_ys x y sort).all (fun yi => yi.length ≤ max_len) = true := by
    rw [List.all_eq_true]
    intro yi hyi
    simp only [decide_eq_true_eq]
    obtain ⟨i, hi, hyi⟩ := List.mem_map.mp hyi
    have hilt : i < x.length := hlstlt i hi
    have heq : yi.length = (x.getD i []).length := by
      rw [← hyi]
      exact hrow i hilt
    rw [heq]
    exact hxbound _ (getD_mem x i [] hilt)
  have hyids : (cob_ys x y sort).mapM (fun yi => yi.mapM (fun t => List.lookup t label2id))
      = some ((cob_ys x y sort).map
          (fun yi => yi.map (fun t => (List.lookup t label2id).getD 0))) := by
    refine mapM_eq_map_of_forall _ _ _ ?_
    intro yi hyi
    refine mapM_eq_map_of_forall _ _ _ ?_
    intro t ht
    have hymem : yi ∈ y := by
      obtain ⟨i, hi, hyi⟩ := List.mem_map.mp hyi
      rw [← hyi]
      exact getD_mem y i [] (by rw [hylen]; exact hlstlt i hi)
    obtain ⟨v, hv⟩ := Option.isSome_iff_exists.mp (lookup_isSome_of_mem (htags yi hymem t ht))
    rw [hv]
    rfl
  refine ⟨(cob_xs x sort).map (fun xi =>
      xi.map (fun w => (List.lookup w word2id).getD oov_id)
        ++ List.replicate (max_len - xi.length) pad_id),
    ((cob_ys x y sort).map (fun yi => yi.map (fun t => (List.lookup t label2id).getD 0))).map
      (fun r => r ++ List.replicate (max_len - r.length) label_pad_id),
    max_len, ?_, hmax, hxbound, ?_, ?_, ?_⟩
  · unfold create_one_batch
    simp only [Option.bind_eq_bind]
    rw [hys]
    simp only [Option.some_bind]
    rw [hmax]
    simp only [Option.some_bind]
    rw [hoov]
    simp only [Option.some_bind]
    rw [hpad]
    simp only [Option.some_bind]
    rw [hlpad]
    simp only [Option.some_bind]
    rw [if_pos hguard, hyids]
    simp only [Option.some_bind]
  · rw [List.length_map, cob_xs_length]
  · rw [List.length_map, List.length_map]
    unfold cob_ys
    rw [List.length_map, cob_lst_length]
  · intro i hi
    have hixs : i < (cob_xs x sort).length := by rw [cob_xs_length]; exact hi
    have hiys : i < (cob_ys x y sort).length := by
      unfold cob_ys
      rw [List.length_map, cob_lst_length]
      exact hi
    have hxi_le : ((cob_xs x sort).getD i []).length ≤ max_len :=
      hxbound _ ((cob_xs_perm x sort).subset (getD_mem _ i [] hixs))
    have hyi_eq := hysrow i hi
    have hyi_le : ((cob_ys x y sort).getD i []).length ≤ max_len := by
      rw [hyi_eq]; exact hxi_le
    have hxmaplen : (((cob_xs x sort).getD i []).map
        (fun w => (List.lookup w word2id).getD oov_id)).length
        = ((cob_xs x sort).getD i []).length := List.length_map _ _
    have hymaplen : (((cob_ys x y sort).getD i []).map
        (fun t => (List.lookup t label2id).getD 0)).length
        = ((cob_ys x y sort).getD i []).length := List.length_map _ _
    have hbxrow : ((cob_xs x sort).map (fun xi =>
        xi.map (fun w => (List.lookup w word2id).getD oov_id)
          ++ List.replicate (max_len - xi.length) pad_id)).getD i []
        = ((cob_xs x sort).getD i []).map (fun w => (List.lookup w word2id).getD oov_id)
          ++ List.replicate
            (max_len - (((cob_xs x sort).getD i []).map
              (fun w => (List.lookup w word2id).getD oov_id)).length) pad_id := by
      rw [getD_map_of_lt (fun xi =>
        xi.map (fun w => (List.lookup w word2id).getD oov_id)
          ++ List.replicate (max_len - xi.length) pad_id) (cob_xs x sort) i hixs [] [],
        hxmaplen]
    have hbyrow : (((cob_ys x y sort).map
        (fun yi => yi.map (fun t => (List.lookup t label2id).getD 0))).map
          (fun r => r ++ List.replicate (max_len - r.length) label_pad_id)).getD i []
        = ((cob_ys x y sort).getD i []).map (fun t => (List.lookup t label2id).getD 0)
          ++ List.replicate
            (max_len - (((cob_ys x y sort).getD i []).map
              (fun t => (List.lookup t label2id).getD 0)).length) label_pad_id := by
      have hiym : i < ((cob_ys x y sort).map
          (fun yi => yi.map (fun t => (List.lookup t label2id).getD 0))).length := by
        rw [List.length_map]
        exact hiys
      rw [getD_map_of_lt (fun r => r ++ List.replicate (max_len - r.length) label_pad_id)
          _ i hiym [] [],
        getD_map_of_lt (fun yi => yi.map (fun t => (List.lookup t label2id).getD 0))
          (cob_ys x y sort) i hiys [] []]
    obtain ⟨hxL, hxIn, hxPad⟩ := padded_row_spec
      (((cob_xs x sort).getD i []).map (fun w => (List.lookup w word2id).getD oov_id))
      pad_id max_len (by rw [hxmaplen]; exact hxi_le) 0
    obtain ⟨hyL, hyIn, hyPad⟩ := padded_row_spec
      (((cob_ys x y sort).getD i []).map (fun t => (List.lookup t label2id).getD 0))
      label_pad_id max_len (by rw [hymaplen]; exact hyi_le) 0
    refine ⟨?_, ?_, hyi_eq, ?_, ?_, ?_, ?_⟩
    · rw [hbxrow]
      exact hxL
    · rw [hbyrow]
      exact hyL
    · intro j hj
      rw [hbxrow, hxIn j (by rw [hxmaplen]; exact hj),
        getD_map_of_lt (fun w => (List.lookup w word2id).getD oov_id) _ j hj "" 0]
    · intro j hj1 hj2
      rw [hbxrow]
      exact hxPad j (by rw [hxmaplen]; exact hj1) hj2
    · intro j hj
      rw [hbyrow, hyIn j (by rw [hymaplen]; exact hj),
        getD_map_of_lt (fun t => (List.lookup t label2id).getD 0) _ j hj "" 0]
      have hmem : ((cob_ys x y sort).getD i []).getD j "" ∈ (cob_ys x y sort).getD i [] :=
        getD_mem _ j "" hj
      have hymem : (cob_ys x y sort).getD i [] ∈ y :=
        (cob_ys_perm x y sort hylen).subset (getD_mem _ i [] hiys)
      obtain ⟨v, hv⟩ := Option.isSome_iff_exists.mp
        (lookup_isSome_of_mem (htags _ hymem _ hmem))
      rw [hv]
      rfl
    · intro j hj1 hj2
      rw [hbyrow]
      exact hyPad j (by rw [hymaplen]; exact hj1) hj2

/-! Lemmas for the chunking and reordering stages of create_batches. -/

lemma mapM_some_spec {α β : Type} (f : α → Option β) (dA : α) (dB : β) :
    ∀ l : List α, (∀ a ∈ l, (f a).isSome) →
    ∃ r, l.mapM f = some r ∧ r.length = l.length ∧
      ∀ i, i < l.length → f (l.getD i dA) = some (r.getD i dB) := by
  intro l
  induction l with
  | nil =>
      intro _
      exact ⟨[], rfl, rfl, fun i hi => absurd hi (Nat.not_lt_zero i)⟩
  | cons a tl ih =>
      intro h
      obtain ⟨b, hb⟩ := Option.isSome_iff_exists.mp (h a (List.mem_cons_self a tl))
      obtain ⟨r, hr, hrl, hri⟩ := ih (fun c hc => h c (List.mem_cons_of_mem a hc))
      refine ⟨b :: r, ?_, by simp [hrl], ?_⟩
      · rw [List.mapM_cons, hb]
        simp only [Option.bind_eq_bind, Option.some_bind]
        rw [hr]
        rfl
      · intro i hi
        cases i with
        | zero => simpa using hb
        | succ j =>
            have hj : j < tl.length := Nat.lt_of_succ_lt_succ hi
            simpa using hri j hj

lemma flatten_perm_of_forall₂ {α : Type} :
    ∀ {l1 l2 : List (List α)}, List.Forall₂ (fun a b => a.Perm b) l1 l2 →
      l1.flatten.Perm l2.flatten := by
  intro l1 l2 h
  induction h with
  | nil => exact List.Perm.refl _
  | cons hab _ ih =>
      simp only [List.flatten_cons]
      exact hab.append ih

lemma forall₂_of_pointwise {α : Type} (d : List α) :
    ∀ (l1 l2 : List (List α)), l1.length = l2.length →
    (∀ i, i < l1.length → ((l1.getD i d).Perm (l2.getD i d))) →
    List.Forall₂ (fun a b => a.Perm b) l1 l2 := by
  intro l1
  induction l1 with
  | nil =>
      intro l2 hlen _
      cases l2 with
      | nil => exact List.Forall₂.nil
      | cons b tl => cases hlen
  | cons a tl ih =>
      intro l2 hlen hpt
      cases l2 with
      | nil => cases hlen
      | cons b tl2 =>
          refine List.Forall₂.cons ?_ ?_
          · simpa using hpt 0 (Nat.succ_pos _)
          · refine ih tl2 (by simpa using hlen) ?_
            intro i hi
            simpa using hpt (i + 1) (Nat.succ_lt_succ hi)

lemma chunks_flatten {α : Type} (b : Nat) (hb : b ≠ 0) :
    ∀ (k : Nat) (l : List α), l.length ≤ k * b →
      ((List.range k).map (fun i => (l.drop (i * b)).take b)).flatten = l := by
  intro k
  induction k with
  | zero =>
      intro l hl
      simp only [Nat.zero_mul, Nat.le_zero] at hl
      rw [List.length_eq_zero.mp hl]
      rfl
  | succ m ih =>
      intro l hl
      rw [List.range_succ_eq_map, List.map_cons, List.map_map, List.flatten_cons]
      have hshift : (List.map ((fun i => (l.drop (i * b)).take b) ∘ Nat.succ) (List.range m))
          = List.map (fun i => ((l.drop b).drop (i * b)).take b) (List.range m) := by
        refine List.map_congr_left ?_
        intro i _
        simp only [Function.comp_apply]
        rw [List.drop_drop]
        have heq : Nat.succ i * b = b + b * i := by
          rw [Nat.succ_mul, Nat.mul_comm b i]
          exact Nat.add_comm _ _
        rw [heq, Nat.mul_comm b i]
      rw [hshift, Nat.zero_mul, List.drop_zero]
      have hrest : (l.drop b).length ≤ m * b := by
        rw [List.length_drop]
        have : (m + 1) * b = m * b + b := by ring
        rw [this] at hl
        exact Nat.sub_le_iff_le_add.mpr hl
      rw [ih (l.drop b) hrest, List.take_append_drop]

lemma ceil_mul_ge (n b : Nat) (hb : b ≠ 0) : n ≤ ((n - 1) / b + 1) * b := by
  have hbpos : 0 < b := Nat.pos_of_ne_zero hb
  have hmod : (n - 1) % b < b := Nat.mod_lt _ hbpos
  have h1 : n - 1 < ((n - 1) / b + 1) * b := by
    calc n - 1 = (n - 1) / b * b + (n - 1) % b := (Nat.div_add_mod' (n - 1) b).symm
    _ < (n - 1) / b * b + b := Nat.add_lt_add_left hmod _
    _ = ((n - 1) / b + 1) * b := by rw [Nat.add_mul, Nat.one_mul]
  rcases Nat.eq_zero_or_pos n with h | h
  · rw [h]; exact Nat.zero_le _
  · have := Nat.succ_le_of_lt h1
    rw [Nat.succ_eq_add_one, Nat.sub_add_cancel h] at this
    exact this

lemma mapM_get?_nil {α : Type} (p : List Nat) (hp : p ≠ []) :
    p.mapM (fun i => ([] : List α).get? i) = none := by
  cases p with
  | nil => exact absurd rfl hp
  | cons a q =>
      rw [List.mapM_cons]
      rfl

lemma range_getD (n i : Nat) (h : i < n) : (List.range n).getD i 0 = i := by
  rw [List.getD_eq_getElem _ _ (by simpa using h), List.getElem_range]

lemma getD_take_drop {α : Type} (l : List α) (a bsz j : Nat) (d : α)
    (hj : j < ((l.drop a).take bsz).length) :
    ((l.drop a).take bsz).getD j d = l.getD (a + j) d := by
  have hjd : j < (l.drop a).length := by
    rw [List.length_take] at hj
    exact lt_of_lt_of_le hj (min_le_right _ _)
  have hjl : a + j < l.length := by
    rw [List.length_drop] at hjd
    omega
  rw [List.getD_eq_getElem _ _ hj, List.getElem_take, List.getElem_drop,
    List.getD_eq_getElem _ _ hjl]

lemma chunk_nonempty {α : Type} (l : List α) (b i k : Nat) (hb : b ≠ 0)
    (hl : l ≠ []) (hk : k = (l.length - 1) / b + 1) (hi : i < k) :
    (l.drop (i * b)).take b ≠ [] := by
  have hbpos : 0 < b := Nat.pos_of_ne_zero hb
  have hlpos : 0 < l.length := List.length_pos.mpr hl
  have hib : i * b < l.length := by
    have hik : i ≤ k - 1 := Nat.le_sub_one_of_lt hi
    have : i * b ≤ (k - 1) * b := Nat.mul_le_mul_right b hik
    have hk1 : k - 1 = (l.length - 1) / b := by rw [hk]; simp
    rw [hk1] at this
    have hdb : (l.length - 1) / b * b ≤ l.length - 1 := Nat.div_mul_le_self _ _
    exact Nat.lt_of_le_of_lt (this.trans hdb) (Nat.sub_lt hlpos Nat.one_pos)
  intro hc
  have := congrArg List.length hc
  rw [List.length_take, List.length_drop] at this
  simp only [List.length_nil] at this
  rcases Nat.min_eq_zero_iff.mp this with h | h
  · exact hb (Nat.eq_zero_of_le_zero (le_of_eq h))
  · exact absurd (Nat.sub_eq_zero_iff_le.mp h) (not_le.mpr hib)

/-- The chunking stage of create_batches: with a permutation index list,
every chunk batch succeeds, and the per-batch length lists and the text
chunks each cover the corpus exactly once (as multisets). -/
lemma chunk_stage_sound (x y t : List (List String)) (lst : List Nat)
    (batch_size : Nat) (word2id label2id : List (String × Nat)) (sort : Bool)
    (oov_id pad_id label_pad_id : Nat)
    (hb : batch_size ≠ 0) (hx : x ≠ [])
    (hylen : y.length = x.length) (htlen : t.length = x.length)
    (hrow : ∀ i, i < x.length → (y.getD i []).length = (x.getD i []).length)
    (hoov : List.lookup "<oov>" word2id = some oov_id)
    (hpad : List.lookup "<pad>" word2id = some pad_id)
    (hlpad : List.lookup "<pad>" label2id = some label_pad_id)
    (htags : ∀ yi ∈ y, ∀ tg ∈ yi, tg ∈ label2id.map Prod.fst)
    (hlst : lst.Perm (List.range x.length)) :
    ∃ rs : List (List (List Nat) × List (List Nat) × List Nat),
      (List.range ((x.length - 1) / batch_size + 1)).mapM
        (fun i => create_one_batch
          (((lst.map (fun j => x.getD j [])).drop (i * batch_size)).take batch_size)
          (((lst.map (fun j => y.getD j [])).drop (i * batch_size)).take batch_size)
          word2id label2id sort) = some rs ∧
      rs.length = (x.length - 1) / batch_size + 1 ∧
      (rs.map (fun r => r.2.2)).flatten.Perm (x.map (fun e => e.length)) ∧
      ((List.range ((x.length - 1) / batch_size + 1)).map
        (fun i => ((lst.map (fun j => t.getD j [])).drop (i * batch_size)).take
          batch_size)).flatten.Perm t := by
  set xs := lst.map (fun j => x.getD j []) with hxsdef
  set ys := lst.map (fun j => y.getD j []) with hysdef
  set ts := lst.map (fun j => t.getD j []) with htsdef
  set nbv := (x.length - 1) / batch_size + 1 with hnbvdef
  have hlstlt : ∀ i ∈ lst, i < x.length := mem_lt_of_perm_range hlst
  have hxsperm : xs.Perm x := perm_map_getD [] hlst
  have hxslen : xs.length = x.length := hxsperm.length_eq
  have hysperm : ys.Perm y := perm_map_getD [] (by rw [hylen]; exact hlst)
  have htsperm : ts.Perm t := perm_map_getD [] (by rw [htlen]; exact hlst)
  have hyslen : ys.length = xs.length := by
    rw [hysdef, hxsdef, List.length_map, List.length_map]
  have htslen : ts.length = x.length := htsperm.length_eq.trans htlen
  have hxsne : xs ≠ [] := by
    intro h
    have h0 := hxslen
    rw [h] at h0
    exact hx (List.length_eq_zero.mp h0.symm)
  have hchunkrow : ∀ i, i < nbv →
      ∀ j, j < ((xs.drop (i * batch_size)).take batch_size).length →
      (((ys.drop (i * batch_size)).take batch_size).getD j []).length
        = (((xs.drop (i * batch_size)).take batch_size).getD j []).length := by
    intro i _ j hj
    have hcl : ((ys.drop (i * batch_size)).take batch_size).length
        = ((xs.drop (i * batch_size)).take batch_size).length := by
      rw [List.length_take, List.length_take, List.length_drop, List.length_drop, hyslen]
    have hjy : j < ((ys.drop (i * batch_size)).take batch_size).length := by
      rw [hcl]
      exact hj
    rw [getD_take_drop ys _ _ j [] hjy, getD_take_drop xs _ _ j [] hj]
    have hm : i * batch_size + j < lst.length := by
      have hj2 := hj
      rw [List.length_take, List.length_drop] at hj2
      have hj3 := lt_of_lt_of_le hj2 (min_le_right _ _)
      have hxl : xs.length = lst.length := by rw [hxsdef, List.length_map]
      omega
    rw [hysdef, hxsdef,
      getD_map_of_lt (fun j => y.getD j []) lst _ hm 0,
      getD_map_of_lt (fun j => x.getD j []) lst _ hm 0]
    exact hrow (lst.getD (i * batch_size + j) 0) (hlstlt _ (getD_mem lst _ 0 hm))
  have hchunktags : ∀ i : Nat, ∀ yi ∈ (ys.drop (i * batch_size)).take batch_size,
      ∀ tg ∈ yi, tg ∈ label2id.map Prod.fst := by
    intro i yi hyi tg htg
    have hmem : yi ∈ y :=
      hysperm.subset (((List.take_sublist _ _).trans (List.drop_sublist _ _)).subset hyi)
    exact htags yi hmem tg htg
  have hchunk : ∀ i, i < nbv → ∃ cbx cby,
      create_one_batch ((xs.drop (i * batch_size)).take batch_size)
        ((ys.drop (i * batch_size)).take batch_size) word2id label2id sort
        = some (cbx, cby, cob_lens ((xs.drop (i * batch_size)).take batch_size) sort) := by
    intro i hi
    have hne : (xs.drop (i * batch_size)).take batch_size ≠ [] :=
      chunk_nonempty xs batch_size i nbv hb hxsne (by rw [hnbvdef, hxslen]) hi
    have hcl : ((ys.drop (i * batch_size)).take batch_size).length
        = ((xs.drop (i * batch_size)).take batch_size).length := by
      rw [List.length_take, List.length_take, List.length_drop, List.length_drop, hyslen]
    obtain ⟨cbx, cby, ml, hcb, _, _, _, _, _⟩ := create_one_batch_sound
      ((xs.drop (i * batch_size)).take batch_size)
      ((ys.drop (i * batch_size)).take batch_size)
      word2id label2id sort oov_id pad_id label_pad_id hne hcl (hchunkrow i hi)
      hoov hpad hlpad (hchunktags i)
    exact ⟨cbx, cby, hcb⟩
  obtain ⟨rs, hrs, hrslen0, hrsi⟩ := mapM_some_spec
    (fun i => create_one_batch ((xs.drop (i * batch_size)).take batch_size)
      ((ys.drop (i * batch_size)).take batch_size) word2id label2id sort)
    0 ([], [], []) (List.range nbv)
    (by
      intro i hi
      obtain ⟨cbx, cby, hc⟩ := hchunk i (List.mem_range.mp hi)
      simp only [hc, Option.isSome_some])
  have hrslen : rs.length = nbv := by rw [hrslen0, List.length_range]
  have hlensi : ∀ i, i < nbv →
      (rs.getD i ([], [], [])).2.2
        = cob_lens ((xs.drop (i * batch_size)).take batch_size) sort := by
    intro i hi
    obtain ⟨cbx, cby, hc⟩ := hchunk i hi
    have h1 := hrsi i (by rw [List.length_range]; exact hi)
    rw [range_getD nbv i hi, hc] at h1
    have h2 := Option.some.inj h1
    rw [← h2]
  have hlensflat : (rs.map (fun r => r.2.2)).flatten.Perm (x.map (fun e => e.length)) := by
    have hBlen : (rs.map (fun r => r.2.2)).length = nbv := by
      rw [List.length_map, hrslen]
    have hB2 : ((List.range nbv).map
        (fun i => (((xs.map (fun e => e.length)).drop (i * batch_size)).take
          batch_size))).flatten = xs.map (fun e => e.length) := by
      refine chunks_flatten batch_size hb nbv (xs.map (fun e => e.length)) ?_
      rw [List.length_map, hxslen, hnbvdef]
      exact ceil_mul_ge x.length batch_size hb
    have hforall : List.Forall₂ (fun a b => a.Perm b)
        (rs.map (fun r => r.2.2))
        ((List.range nbv).map
          (fun i => (((xs.map (fun e => e.length)).drop (i * batch_size)).take
            batch_size))) := by
      refine forall₂_of_pointwise [] _ _ ?_ ?_
      · rw [hBlen, List.length_map, List.length_range]
      · intro i hi
        have hi2 : i < nbv := by rw [hBlen] at hi; exact hi
        have hL : (rs.map (fun r => r.2.2)).getD i []
            = cob_lens ((xs.drop (i * batch_size)).take batch_size) sort := by
          rw [getD_map_of_lt (fun r => r.2.2) rs i (by rw [hrslen]; exact hi2)
            ([], [], []) []]
          exact hlensi i hi2
        have hR : ((List.range nbv).map
            (fun i => (((xs.map (fun e => e.length)).drop (i * batch_size)).take
              batch_size))).getD i []
            = ((xs.map (fun e => e.length)).drop (i * batch_size)).take batch_size := by
          rw [getD_map_of_lt _ (List.range nbv) i
            (by rw [List.length_range]; exact hi2) 0 [], range_getD nbv i hi2]
        rw [hL, hR]
        have h1 := cob_lens_perm ((xs.drop (i * batch_size)).take batch_size) sort
        have h2 : ((xs.drop (i * batch_size)).take batch_size).map
            (fun e : List String => e.length)
            = ((xs.map (fun e => e.length)).drop (i * batch_size)).take batch_size := by
          rw [List.map_take, List.map_drop]
        rw [← h2]
        exact h1
    have hflat2 := flatten_perm_of_forall₂ hforall
    rw [hB2] at hflat2
    exact hflat2.trans (hxsperm.map (fun e => e.length))
  have htextflat : ((List.range nbv).map
      (fun i => (ts.drop (i * batch_size)).take batch_size)).flatten.Perm t := by
    have hc := chunks_flatten batch_size hb nbv ts
      (by rw [htslen, hnbvdef]; exact ceil_mul_ge x.length batch_size hb)
    rw [hc]
    exact htsperm
  exact ⟨rs, hrs, hrslen, hlensflat, htextflat⟩

/-- create_batches_core with sort set and texts supplied: succeeds, returns
ceil(n over batch_size) batches in all four outputs, and the length lists
and text lists still cover the corpus exactly once after the whole-batch
reorder (the text lists are permuted twice, which is still a permutation). -/
lemma create_batches_core_sorted (x y t : List (List String)) (lst posPerm : List Nat)
    (batch_size : Nat) (word2id label2id : List (String × Nat))
    (oov_id pad_id label_pad_id : Nat)
    (hb : batch_size ≠ 0) (hx : x ≠ [])
    (hylen : y.length = x.length) (htlen : t.length = x.length)
    (hrow : ∀ i, i < x.length → (y.getD i []).length = (x.getD i []).length)
    (hoov : List.lookup "<oov>" word2id = some oov_id)
    (hpad : List.lookup "<pad>" word2id = some pad_id)
    (hlpad : List.lookup "<pad>" label2id = some label_pad_id)
    (htags : ∀ yi ∈ y, ∀ tg ∈ yi, tg ∈ label2id.map Prod.fst)
    (hlst : lst.Perm (List.range x.length))
    (hpos : posPerm.Perm (List.range ((x.length - 1) / batch_size + 1))) :
    ∃ bx by2 blens bts,
      create_batches_core x y batch_size word2id label2id true (some t) posPerm lst
        = some (bx, by2, blens, some bts) ∧
      bx.length = (x.length - 1) / batch_size + 1 ∧
      by2.length = (x.length - 1) / batch_size + 1 ∧
      blens.length = (x.length - 1) / batch_size + 1 ∧
      bts.length = (x.length - 1) / batch_size + 1 ∧
      blens.flatten.Perm (x.map (fun e => e.length)) ∧
      bts.flatten.Perm t := by
  obtain ⟨rs, hrs, hrslen, hlensflat, htextflat⟩ :=
    chunk_stage_sound x y t lst batch_size word2id label2id true
      oov_id pad_id label_pad_id hb hx hylen htlen hrow hoov hpad hlpad htags hlst
  have hlstlt : ∀ i ∈ lst, i < x.length := mem_lt_of_perm_range hlst
  have hposlt : ∀ i ∈ posPerm, i < (x.length - 1) / batch_size + 1 :=
    mem_lt_of_perm_range hpos
  have hposlen : posPerm.length = (x.length - 1) / batch_size + 1 := by
    rw [hpos.length_eq, List.length_range]
  have hys : lst.mapM (fun i => y.get? i) = some (lst.map (fun i => y.getD i [])) := by
    refine mapM_eq_map_of_forall _ _ _ ?_
    intro i hi
    exact get?_eq_getD y i [] (by rw [hylen]; exact hlstlt i hi)
  have hts : lst.mapM (fun i => t.get? i) = some (lst.map (fun i => t.getD i [])) := by
    refine mapM_eq_map_of_forall _ _ _ ?_
    intro i hi
    exact get?_eq_getD t i [] (by rw [htlen]; exact hlstlt i hi)
  have hxslen2 : (lst.map (fun i => x.getD i [])).length = x.length := by
    rw [List.length_map, hlst.length_eq, List.length_range]
  have hbx : posPerm.mapM (fun i => (rs.map (fun r => r.1)).get? i)
      = some (posPerm.map (fun i => (rs.map (fun r => r.1)).getD i [])) := by
    refine mapM_eq_map_of_forall _ _ _ ?_
    intro i hi
    exact get?_eq_getD _ i [] (by rw [List.length_map, hrslen]; exact hposlt i hi)
  have hby : posPerm.mapM (fun i => (rs.map (fun r => r.2.1)).get? i)
      = some (posPerm.map (fun i => (rs.map (fun r => r.2.1)).getD i [])) := by
    refine mapM_eq_map_of_forall _ _ _ ?_
    intro i hi
    exact get?_eq_getD _ i [] (by rw [List.length_map, hrslen]; exact hposlt i hi)
  have hbl : posPerm.mapM (fun i => (rs.map (fun r => r.2.2)).get? i)
      = some (posPerm.map (fun i => (rs.map (fun r => r.2.2)).getD i [])) := by
    refine mapM_eq_map_of_forall _ _ _ ?_
    intro i hi
    exact get?_eq_getD _ i [] (by rw [List.length_map, hrslen]; exact hposlt i hi)
  have hBT0len : ((List.range ((x.length - 1) / batch_size + 1)).map
      (fun i => ((lst.map (fun i => t.getD i [])).drop (i * batch_size)).take
        batch_size)).length = (x.length - 1) / batch_size + 1 := by
    rw [List.length_map, List.length_range]
  have hbt : posPerm.mapM (fun i =>
      ((List.range ((x.length - 1) / batch_size + 1)).map
        (fun i => ((lst.map (fun i => t.getD i [])).drop (i * batch_size)).take
          batch_size)).get? i)
      = some (posPerm.map (fun i =>
        ((List.range ((x.length - 1) / batch_size + 1)).map
          (fun i => ((lst.map (fun i => t.getD i [])).drop (i * batch_size)).take
            batch_size)).getD i [])) := by
    refine mapM_eq_map_of_forall _ _ _ ?_
    intro i hi
    exact get?_eq_getD _ i [] (by rw [hBT0len]; exact hposlt i hi)
  have hBT1len : (posPerm.map (fun i =>
      ((List.range ((x.length - 1) / batch_size + 1)).map
        (fun i => ((lst.map (fun i => t.getD i [])).drop (i * batch_size)).take
          batch_size)).getD i [])).length = (x.length - 1) / batch_size + 1 := by
    rw [List.length_map, hposlen]
  have hbt2 : posPerm.mapM (fun i =>
      (posPerm.map (fun i =>
        ((List.range ((x.length - 1) / batch_size + 1)).map
          (fun i => ((lst.map (fun i => t.getD i [])).drop (i * batch_size)).take
            batch_size)).getD i [])).get? i)
      = some (posPerm.map (fun i =>
        (posPerm.map (fun i =>
          ((List.range ((x.length - 1) / batch_size + 1)).map
            (fun i => ((lst.map (fun i => t.getD i [])).drop (i * batch_size)).take
              batch_size)).getD i [])).getD i [])) := by
    refine mapM_eq_map_of_forall _ _ _ ?_
    intro i hi
    exact get?_eq_getD _ i [] (by rw [hBT1len]; exact hposlt i hi)
  refine ⟨posPerm.map (fun i => (rs.map (fun r => r.1)).getD i []),
    posPerm.map (fun i => (rs.map (fun r => r.2.1)).getD i []),
    posPerm.map (fun i => (rs.map (fun r => r.2.2)).getD i []),
    posPerm.map (fun i =>
      (posPerm.map (fun i =>
        ((List.range ((x.length - 1) / batch_size + 1)).map
          (fun i => ((lst.map (fun i => t.getD i [])).drop (i * batch_size)).take
            batch_size)).getD i [])).getD i []),
    ?_, ?_, ?_, ?_, ?_, ?_, ?_⟩
  · unfold create_batches_core
    simp only [Option.bind_eq_bind]
    rw [hys]
    simp only [Option.some_bind]
    rw [hts]
    simp only [Option.map_some', Option.some_bind]
    rw [hxslen2, hrs]
    simp only [Option.some_bind, if_true]
    rw [hbx]
    simp only [Option.some_bind]
    rw [hby]
    simp only [Option.some_bind]
    rw [hbt]
    simp only [Option.some_bind]
    rw [hbl]
    simp only [Option.some_bind]
    rw [hbt2]
    simp only [Option.map_some', Option.some_bind]
  · rw [List.length_map, hposlen]
  · rw [List.length_map, hposlen]
  · rw [List.length_map, hposlen]
  · rw [List.length_map, hposlen]
  · have hposBL : posPerm.Perm (List.range (rs.map (fun r => r.2.2)).length) := by
      rw [List.length_map, hrslen]
      exact hpos
    exact ((perm_map_getD [] hposBL).flatten).trans hlensflat
  · have hposBT0 : posPerm.Perm (List.range
        ((List.range ((x.length - 1) / batch_size + 1)).map
          (fun i => ((lst.map (fun i => t.getD i [])).drop (i * batch_size)).take
            batch_size)).length) := by
      rw [hBT0len]
      exact hpos
    have hposBT1 : posPerm.Perm (List.range
        (posPerm.map (fun i =>
          ((List.range ((x.length - 1) / batch_size + 1)).map
            (fun i => ((lst.map (fun i => t.getD i [])).drop (i * batch_size)).take
              batch_size)).getD i [])).length) := by
      rw [hBT1len]
      exact hpos
    exact ((perm_map_getD [] hposBT1).flatten).trans
      (((perm_map_getD [] hposBT0).flatten).trans htextflat)

/-- create_batches_core with sort unset and texts supplied: succeeds with
the chunk batches in corpus order; the length lists and text lists cover
the corpus exactly once. -/
lemma create_batches_core_unsorted (x y t : List (List String)) (lst posPerm : List Nat)
    (batch_size : Nat) (word2id label2id : List (String × Nat))
    (oov_id pad_id label_pad_id : Nat)
    (hb : batch_size ≠ 0) (hx : x ≠ [])
    (hylen : y.length = x.length) (htlen : t.length = x.length)
    (hrow : ∀ i, i < x.length → (y.getD i []).length = (x.getD i []).length)
    (hoov : List.lookup "<oov>" word2id = some oov_id)
    (hpad : List.lookup "<pad>" word2id = some pad_id)
    (hlpad : List.lookup "<pad>" label2id = some label_pad_id)
    (htags : ∀ yi ∈ y, ∀ tg ∈ yi, tg ∈ label2id.map Prod.fst)
    (hlst : lst.Perm (List.range x.length)) :
    ∃ bx by2 blens bts,
      create_batches_core x y batch_size word2id label2id false (some t) posPerm lst
        = some (bx, by2, blens, some bts) ∧
      bx.length = (x.length - 1) / batch_size + 1 ∧
      by2.length = (x.length - 1) / batch_size + 1 ∧
      blens.length = (x.length - 1) / batch_size + 1 ∧
      bts.length = (x.length - 1) / batch_size + 1 ∧
      blens.flatten.Perm (x.map (fun e => e.length)) ∧
      bts.flatten.Perm t := by
  obtain ⟨rs, hrs, hrslen, hlensflat, htextflat⟩ :=
    chunk_stage_sound x y t lst batch_size word2id label2id false
      oov_id pad_id label_pad_id hb hx hylen htlen hrow hoov hpad hlpad htags hlst
  have hlstlt : ∀ i ∈ lst, i < x.length := mem_lt_of_perm_range hlst
  have hys : lst.mapM (fun i => y.get? i) = some (lst.map (fun i => y.getD i [])) := by
    refine mapM_eq_map_of_forall _ _ _ ?_
    intro i hi
    exact get?_eq_getD y i [] (by rw [hylen]; exact hlstlt i hi)
  have hts : lst.mapM (fun i => t.get? i) = some (lst.map (fun i => t.getD i [])) := by
    refine mapM_eq_map_of_forall _ _ _ ?_
    intro i hi
    exact get?_eq_getD t i [] (by rw [htlen]; exact hlstlt i hi)
  have hxslen2 : (lst.map (fun i => x.getD i [])).length = x.length := by
    rw [List.length_map, hlst.length_eq, List.length_range]
  refine ⟨rs.map (fun r => r.1), rs.map (fun r => r.2.1), rs.map (fun r => r.2.2),
    (List.range ((x.length - 1) / batch_size + 1)).map
      (fun i => ((lst.map (fun i => t.getD i [])).drop (i * batch_size)).take batch_size),
    ?_, ?_, ?_, ?_, ?_, hlensflat, htextflat⟩
  · unfold create_batches_core
    simp only [Option.bind_eq_bind]
    rw [hys]
    simp only [Option.some_bind]
    rw [hts]
    simp only [Option.map_some', Option.some_bind]
    rw [hxslen2, hrs]
    simp only [Option.some_bind, Bool.false_eq_true, if_false]
  · rw [List.length_map, hrslen]
  · rw [List.length_map, hrslen]
  · rw [List.length_map, hrslen]
  · rw [List.length_map, List.length_range]

/-- create_batches_core with sort set but no texts: the batch-reorder step
indexes the empty text-batch list (source line 189) and fails, so the call
produces nothing, however well-formed the corpus is. -/
lemma create_batches_core_sorted_no_text (x y : List (List String)) (lst posPerm : List Nat)
    (batch_size : Nat) (word2id label2id : List (String × Nat))
    (oov_id pad_id label_pad_id : Nat)
    (hb : batch_size ≠ 0) (hx : x ≠ [])
    (hylen : y.length = x.length)
    (hrow : ∀ i, i < x.length → (y.getD i []).length = (x.getD i []).length)
    (hoov : List.lookup "<oov>" word2id = some oov_id)
    (hpad : List.lookup "<pad>" word2id = some pad_id)
    (hlpad : List.lookup "<pad>" label2id = some label_pad_id)
    (htags : ∀ yi ∈ y, ∀ tg ∈ yi, tg ∈ label2id.map Prod.fst)
    (hlst : lst.Perm (List.range x.length))
    (hpos : posPerm.Perm (List.range ((x.length - 1) / batch_size + 1))) :
    create_batches_core x y batch_size word2id label2id true none posPerm lst = none := by
  obtain ⟨rs, hrs, hrslen, _, _⟩ :=
    chunk_stage_sound x y x lst batch_size word2id label2id true
      oov_id pad_id label_pad_id hb hx hylen rfl hrow hoov hpad hlpad htags hlst
  have hlstlt : ∀ i ∈ lst, i < x.length := mem_lt_of_perm_range hlst
  have hposlt : ∀ i ∈ posPerm, i < (x.length - 1) / batch_size + 1 :=
    mem_lt_of_perm_range hpos
  have hposne : posPerm ≠ [] := by
    intro h
    have h0 := hpos.length_eq
    rw [h, List.length_range] at h0
    exact Nat.succ_ne_zero _ h0.symm
  have hys : lst.mapM (fun i => y.get? i) = some (lst.map (fun i => y.getD i [])) := by
    refine mapM_eq_map_of_forall _ _ _ ?_
    intro i hi
    exact get?_eq_getD y i [] (by rw [hylen]; exact hlstlt i hi)
  have hxslen2 : (lst.map (fun i => x.getD i [])).length = x.length := by
    rw [List.length_map, hlst.length_eq, List.length_range]
  have hbx : posPerm.mapM (fun i => (rs.map (fun r => r.1)).get? i)
      = some (posPerm.map (fun i => (rs.map (fun r => r.1)).getD i [])) := by
    refine mapM_eq_map_of_forall _ _ _ ?_
    intro i hi
    exact get?_eq_getD _ i [] (by rw [List.length_map, hrslen]; exact hposlt i hi)
  have hby : posPerm.mapM (fun i => (rs.map (fun r => r.2.1)).get? i)
      = some (posPerm.map (fun i => (rs.map (fun r => r.2.1)).getD i [])) := by
    refine mapM_eq_map_of_forall _ _ _ ?_
    intro i hi
    exact get?_eq_getD _ i [] (by rw [List.length_map, hrslen]; exact hposlt i hi)
  unfold create_batches_core
  simp only [Option.bind_eq_bind]
  rw [hys]
  simp only [Option.some_bind]
  rw [hxslen2, hrs]
  simp only [Option.some_bind, if_true]
  rw [hbx]
  simp only [Option.some_bind]
  rw [hby]
  simp only [Option.some_bind]
  rw [mapM_get?_nil posPerm hposne]
  rfl

/-- create_batches_core with sort unset and no texts: completes, returning
the chunk batches and no text output. -/
lemma create_batches_core_unsorted_no_text (x y : List (List String)) (lst posPerm : List Nat)
    (batch_size : Nat) (word2id label2id : List (String × Nat))
    (oov_id pad_id label_pad_id : Nat)
    (hb : batch_size ≠ 0) (hx : x ≠ [])
    (hylen : y.length = x.length)
    (hrow : ∀ i, i < x.length → (y.getD i []).length = (x.getD i []).length)
    (hoov : List.lookup "<oov>" word2id = some oov_id)
    (hpad : List.lookup "<pad>" word2id = some pad_id)
    (hlpad : List.lookup "<pad>" label2id = some label_pad_id)
    (htags : ∀ yi ∈ y, ∀ tg ∈ yi, tg ∈ label2id.map Prod.fst)
    (hlst : lst.Perm (List.range x.length)) :
    ∃ bx by2 blens,
      create_batches_core x y batch_size word2id label2id false none posPerm lst
        = some (bx, by2, blens, none) := by
  obtain ⟨rs, hrs, hrslen, _, _⟩ :=
    chunk_stage_sound x y x lst batch_size word2id label2id false
      oov_id pad_id label_pad_id hb hx hylen rfl hrow hoov hpad hlpad htags hlst
  have hlstlt : ∀ i ∈ lst, i < x.length := mem_lt_of_perm_range hlst
  have hys : lst.mapM (fun i => y.get? i) = some (lst.map (fun i => y.getD i [])) := by
    refine mapM_eq_map_of_forall _ _ _ ?_
    intro i hi
    exact get?_eq_getD y i [] (by rw [hylen]; exact hlstlt i hi)
  have hxslen2 : (lst.map (fun i => x.getD i [])).length = x.length := by
    rw [List.length_map, hlst.length_eq, List.length_range]
  refine ⟨rs.map (fun r => r.1), rs.map (fun r => r.2.1), rs.map (fun r => r.2.2), ?_⟩
  unfold create_batches_core
  simp only [Option.bind_eq_bind]
  rw [hys]
  simp only [Option.some_bind]
  rw [hxslen2, hrs]
  simp only [Option.some_bind, Bool.false_eq_true, if_false]

/-- C2: for every non-empty corpus and batch size at least 1, with the
original texts supplied, create_batches partitions the (possibly shuffled
and length-sorted) examples into ceil(n over batch_size) contiguous
chunks: all four outputs have that many batches, and the per-batch length
lists and per-batch example text lists, concatenated over all batches,
reproduce the corpus exactly as a multiset (no example duplicated or
dropped); the concrete scenario of 5 examples at batch size 2 yields 3
batches of sizes 2, 2, 1. -/
theorem C2_batch_coverage (x y t : List (List String)) (batch_size : Nat)
    (word2id label2id : List (String × Nat)) (sort shuffle : Bool)
    (shufflePerm posPerm : List Nat) (oov_id pad_id label_pad_id : Nat)
    (hb : 1 ≤ batch_size) (hx : x ≠ [])
    (hylen : y.length = x.length) (htlen : t.length = x.length)
    (hrow : ∀ i, i < x.length → (y.getD i []).length = (x.getD i []).length)
    (hoov : List.lookup "<oov>" word2id = some oov_id)
    (hpad : List.lookup "<pad>" word2id = some pad_id)
    (hlpad : List.lookup "<pad>" label2id = some label_pad_id)
    (htags : ∀ yi ∈ y, ∀ tg ∈ yi, tg ∈ label2id.map Prod.fst)
    (hsh : shuffle = true → shufflePerm.Perm (List.range x.length))
    (hpos : posPerm.Perm (List.range ((x.length - 1) / batch_size + 1))) :
    (∃ bx by2 blens bts,
      create_batches x y batch_size word2id label2id sort shuffle (some t)
        shufflePerm posPerm = some (bx, by2, blens, some bts) ∧
      bx.length = (x.length - 1) / batch_size + 1 ∧
      by2.length = (x.length - 1) / batch_size + 1 ∧
      blens.length = (x.length - 1) / batch_size + 1 ∧
      bts.length = (x.length - 1) / batch_size + 1 ∧
      blens.flatten.Perm (x.map (fun e => e.length)) ∧
      bts.flatten.Perm t) ∧
    (create_batches [["a", "a", "a"], ["b", "b", "b"], ["c", "c"], ["d", "d"], ["e"]]
        [["O", "O", "O"], ["O", "O", "O"], ["O", "O"], ["O", "O"], ["O"]] 2
        [("<oov>", 0), ("<pad>", 1)] [("<pad>", 0), ("O", 1)] true false
        (some [["a", "a", "a"], ["b", "b", "b"], ["c", "c"], ["d", "d"], ["e"]])
        [] [0, 1, 2]).map (fun r => r.2.2.1.map List.length) = some [2, 2, 1] := by
  have hbz : batch_size ≠ 0 := by omega
  have hlst0 : (if shuffle then shufflePerm else List.range x.length).Perm
      (List.range x.length) := by
    cases shuffle
    · exact List.Perm.refl _
    · exact hsh rfl
  constructor
  · cases sort
    · obtain ⟨bx, by2, blens, bts, h1, h2, h3, h4, h5, h6, h7⟩ :=
        create_batches_core_unsorted x y t
          (if shuffle then shufflePerm else List.range x.length) posPerm
          batch_size word2id label2id oov_id pad_id label_pad_id
          hbz hx hylen htlen hrow hoov hpad hlpad htags hlst0
      refine ⟨bx, by2, blens, bts, ?_, h2, h3, h4, h5, h6, h7⟩
      unfold create_batches
      rw [if_neg hbz]
      simp only [Bool.false_eq_true, if_false]
      exact h1
    · obtain ⟨bx, by2, blens, bts, h1, h2, h3, h4, h5, h6, h7⟩ :=
        create_batches_core_sorted x y t
          (List.insertionSort (descLenRel x)
            (if shuffle then shufflePerm else List.range x.length)) posPerm
          batch_size word2id label2id oov_id pad_id label_pad_id
          hbz hx hylen htlen hrow hoov hpad hlpad htags
          ((List.perm_insertionSort _ _).trans hlst0) hpos
      refine ⟨bx, by2, blens, bts, ?_, h2, h3, h4, h5, h6, h7⟩
      unfold create_batches
      rw [if_neg hbz]
      simp only [if_true]
      exact h1
  · decide

/-- Witness for C2 at a concrete corpus of two examples, batch size 1,
shuffled and sorted, with a non-identity shuffle and batch reorder. -/
theorem C2_batch_coverage_witness :
    (([1, 0] : List Nat).Perm (List.range 2)) ∧
    ∃ bx by2 blens bts,
      create_batches [["a"], ["b", "c"]] [["O"], ["O", "O"]] 1
        [("<oov>", 0), ("<pad>", 1)] [("<pad>", 0), ("O", 1)] true true
        (some [["a"], ["b", "c"]]) [1, 0] [1, 0]
        = some (bx, by2, blens, some bts) ∧
      bx.length = 2 ∧ by2.length = 2 ∧ blens.length = 2 ∧ bts.length = 2 ∧
      blens.flatten.Perm [1, 2] ∧ bts.flatten.Perm [["a"], ["b", "c"]] :=
  ⟨by decide,
    (C2_batch_coverage [["a"], ["b", "c"]] [["O"], ["O", "O"]] [["a"], ["b", "c"]] 1
      [("<oov>", 0), ("<pad>", 1)] [("<pad>", 0), ("O", 1)] true true [1, 0] [1, 0]
      0 1 0 (by decide) (by decide) rfl rfl (by decide) rfl rfl rfl (by decide)
      (fun _ => by decide) (by decide)).1⟩

/-- C10: with sort set and text left out, every run of create_batches on a
non-empty corpus fails at the batch-reorder step (the empty text-batch
list is indexed), returning none; supplying text, or clearing sort,
makes the same call complete. -/
theorem C10_sort_requires_text (x y : List (List String)) (batch_size : Nat)
    (word2id label2id : List (String × Nat)) (shuffle : Bool)
    (shufflePerm posPerm : List Nat) (oov_id pad_id label_pad_id : Nat)
    (hb : 1 ≤ batch_size) (hx : x ≠ [])
    (hylen : y.length = x.length)
    (hrow : ∀ i, i < x.length → (y.getD i []).length = (x.getD i []).length)
    (hoov : List.lookup "<oov>" word2id = some oov_id)
    (hpad : List.lookup "<pad>" word2id = some pad_id)
    (hlpad : List.lookup "<pad>" label2id = some label_pad_id)
    (htags : ∀ yi ∈ y, ∀ tg ∈ yi, tg ∈ label2id.map Prod.fst)
    (hsh : shuffle = true → shufflePerm.Perm (List.range x.length))
    (hpos : posPerm.Perm (List.range ((x.length - 1) / batch_size + 1))) :
    create_batches x y batch_size word2id label2id true shuffle none
        shufflePerm posPerm = none ∧
    (∀ sort : Bool, ∃ r, create_batches x y batch_size word2id label2id sort shuffle
        (some x) shufflePerm posPerm = some r) ∧
    (∃ r, create_batches x y batch_size word2id label2id false shuffle none
        shufflePerm posPerm = some r) := by
  have hbz : batch_size ≠ 0 := by omega
  have hlst0 : (if shuffle then shufflePerm else List.range x.length).Perm
      (List.range x.length) := by
    cases shuffle
    · exact List.Perm.refl _
    · exact hsh rfl
  refine ⟨?_, ?_, ?_⟩
  · unfold create_batches
    rw [if_neg hbz]
    simp only [if_true]
    exact create_batches_core_sorted_no_text x y
      (List.insertionSort (descLenRel x)
        (if shuffle then shufflePerm else List.range x.length)) posPerm
      batch_size word2id label2id oov_id pad_id label_pad_id
      hbz hx hylen hrow hoov hpad hlpad htags
      ((List.perm_insertionSort _ _).trans hlst0) hpos
  · intro sort
    cases sort
    · obtain ⟨bx, by2, blens, bts, h1, _⟩ :=
        create_batches_core_unsorted x y x
          (if shuffle then shufflePerm else List.range x.length) posPerm
          batch_size word2id label2id oov_id pad_id label_pad_id
          hbz hx hylen rfl hrow hoov hpad hlpad htags hlst0
      refine ⟨(bx, by2, blens, some bts), ?_⟩
      unfold create_batches
      rw [if_neg hbz]
      simp only [Bool.false_eq_true, if_false]
      exact h1
    · obtain ⟨bx, by2, blens, bts, h1, _⟩ :=
        create_batches_core_sorted x y x
          (List.insertionSort (descLenRel x)
            (if shuffle then shufflePerm else List.range x.length)) posPerm
          batch_size word2id label2id oov_id pad_id label_pad_id
          hbz hx hylen rfl hrow hoov hpad hlpad htags
          ((List.perm_insertionSort _ _).trans hlst0) hpos
      refine ⟨(bx, by2, blens, some bts), ?_⟩
      unfold create_batches
      rw [if_neg hbz]
      simp only [if_true]
      exact h1
  · obtain ⟨bx, by2, blens, h1⟩ :=
      create_batches_core_unsorted_no_text x y
        (if shuffle then shufflePerm else List.range x.length) posPerm
        batch_size word2id label2id oov_id pad_id label_pad_id
        hbz hx hylen hrow hoov hpad hlpad htags hlst0
    refine ⟨(bx, by2, blens, none), ?_⟩
    unfold create_batches
    rw [if_neg hbz]
    simp only [Bool.false_eq_true, if_false]
    exact h1

/-- Witness for C10 at the same concrete two-example corpus: the sorted
no-text call returns none. -/
theorem C10_sort_requires_text_witness :
    (([1, 0] : List Nat).Perm (List.range 2)) ∧
    create_batches [["a"], ["b", "c"]] [["O"], ["O", "O"]] 1
      [("<oov>", 0), ("<pad>", 1)] [("<pad>", 0), ("O", 1)] true true none
      [1, 0] [1, 0] = none :=
  ⟨by decide,
    (C10_sort_requires_text [["a"], ["b", "c"]] [["O"], ["O", "O"]] 1
      [("<oov>", 0), ("<pad>", 1)] [("<pad>", 0), ("O", 1)] true [1, 0] [1, 0]
      0 1 0 (by decide) (by decide) rfl (by decide) rfl rfl rfl (by decide)
      (fun _ => by decide) (by decide)).1⟩

/-- C5: the batch-reorder step does not apply one common permutation to
all four outputs: the text batches are permuted by pos_lst twice (source
lines 189 and 191) while the token, label and length batches are permuted
once.  At three single-example batches with reorder permutation 1,2,0 the
token tensors come out in order b, c, a while the text batches come out
c, a, b, so the text batch at position 0 does not hold the tokens of the
token-tensor batch at position 0. -/
theorem C5_text_reorder_misaligned :
    create_batches [["a"], ["b"], ["c"]] [["O"], ["O"], ["O"]] 1
      [("<oov>", 0), ("<pad>", 1), ("a", 2), ("b", 3), ("c", 4)]
      [("<pad>", 0), ("O", 1)] true false (some [["a"], ["b"], ["c"]]) [] [1, 2, 0]
      = some ([[[3]], [[4]], [[2]]], [[[1]], [[1]], [[1]]], [[1], [1], [1]],
          some [[["c"]], [["a"]], [["b"]]]) ∧
    ([[["c"]], [["a"]], [["b"]]] : List (List (List String)))
      ≠ [[["b"]], [["c"]], [["a"]]] := by
  constructor
  · rfl
  · decide

/-- C3: for a well-formed batch fed to create_one_batch (batch non-empty,
reserved tokens present in the dicts, tag rows parallel to token rows and
every tag known), the call succeeds — tokens absent from word2id never
crash, they fall back to the out-of-vocabulary id — and, for every
example row, token-tensor positions before the example's true length hold
the word2id entry of the corresponding token (with the oov fallback)
while positions from the true length up to the batch maximum length hold
the pad id; the parallel label tensor likewise holds the tag's label2id
entry on the true-length positions and the pad-label id beyond them. -/
theorem C3_padding_and_oov (x y : List (List String))
    (word2id label2id : List (String × Nat)) (sort : Bool)
    (oov_id pad_id label_pad_id : Nat)
    (hx : x ≠ [])
    (hylen : y.length = x.length)
    (hrow : ∀ i, i < x.length → (y.getD i []).length = (x.getD i []).length)
    (hoov : List.lookup "<oov>" word2id = some oov_id)
    (hpad : List.lookup "<pad>" word2id = some pad_id)
    (hlpad : List.lookup "<pad>" label2id = some label_pad_id)
    (htags : ∀ yi ∈ y, ∀ t ∈ yi, t ∈ label2id.map Prod.fst) :
    ∃ bx by2 max_len,
      create_one_batch x y word2id label2id sort = some (bx, by2, cob_lens x sort) ∧
      (cob_lens x sort).max? = some max_len ∧
      (∀ e ∈ x, e.length ≤ max_len) ∧
      bx.length = x.length ∧ by2.length = x.length ∧
      (∀ i, i < x.length →
        (bx.getD i []).length = max_len ∧
        (by2.getD i []).length = max_len ∧
        ((cob_ys x y sort).getD i []).length = ((cob_xs x sort).getD i []).length ∧
        (∀ j, j < ((cob_xs x sort).getD i []).length →
          (bx.getD i []).getD j 0
            = (List.lookup (((cob_xs x sort).getD i []).getD j "") word2id).getD oov_id) ∧
        (∀ j, ((cob_xs x sort).getD i []).length ≤ j → j < max_len →
          (bx.getD i []).getD j 0 = pad_id) ∧
        (∀ j, j < ((cob_ys x y sort).getD i []).length →
          List.lookup (((cob_ys x y sort).getD i []).getD j "") label2id
            = some ((by2.getD i []).getD j 0)) ∧
        (∀ j, ((cob_ys x y sort).getD i []).length ≤ j → j < max_len →
          (by2.getD i []).getD j 0 = label_pad_id)) :=
  create_one_batch_sound x y word2id label2id sort oov_id pad_id label_pad_id
    hx hylen hrow hoov hpad hlpad htags

/-- Witness for C3 at a concrete batch whose second example holds the
word c, absent from word2id, exercising the out-of-vocabulary fallback. -/
theorem C3_padding_and_oov_witness :
    ([["a", "b"], ["c"]] : List (List String)) ≠ [] ∧
    ∃ bx by2 max_len,
      create_one_batch [["a", "b"], ["c"]] [["O", "O"], ["O"]]
        [("<oov>", 0), ("<pad>", 1), ("a", 2), ("b", 3)] [("<pad>", 0), ("O", 1)] true
        = some (bx, by2, cob_lens [["a", "b"], ["c"]] true) ∧
      (cob_lens [["a", "b"], ["c"]] true).max? = some max_len ∧
      (∀ e ∈ ([["a", "b"], ["c"]] : List (List String)), e.length ≤ max_len) ∧
      bx.length = 2 ∧ by2.length = 2 ∧
      (∀ i, i < 2 →
        (bx.getD i []).length = max_len ∧
        (by2.getD i []).length = max_len ∧
        ((cob_ys [["a", "b"], ["c"]] [["O", "O"], ["O"]] true).getD i []).length
          = ((cob_xs [["a", "b"], ["c"]] true).getD i []).length ∧
        (∀ j, j < ((cob_xs [["a", "b"], ["c"]] true).getD i []).length →
          (bx.getD i []).getD j 0
            = (List.lookup (((cob_xs [["a", "b"], ["c"]] true).getD i []).getD j "")
                [("<oov>", 0), ("<pad>", 1), ("a", 2), ("b", 3)]).getD 0) ∧
        (∀ j, ((cob_xs [["a", "b"], ["c"]] true).getD i []).length ≤ j → j < max_len →
          (bx.getD i []).getD j 0 = 1) ∧
        (∀ j, j < ((cob_ys [["a", "b"], ["c"]] [["O", "O"], ["O"]] true).getD i []).length →
          List.lookup
            (((cob_ys [["a", "b"], ["c"]] [["O", "O"], ["O"]] true).getD i []).getD j "")
            [("<pad>", 0), ("O", 1)] = some ((by2.getD i []).getD j 0)) ∧
        (∀ j, ((cob_ys [["a", "b"], ["c"]] [["O", "O"], ["O"]] true).getD i []).length ≤ j →
          j < max_len → (by2.getD i []).getD j 0 = 0)) :=
  ⟨by decide,
    C3_padding_and_oov [["a", "b"], ["c"]] [["O", "O"], ["O"]]
      [("<oov>", 0), ("<pad>", 1), ("a", 2), ("b", 3)] [("<pad>", 0), ("O", 1)] true
      0 1 0 (by decide) rfl (by decide) rfl rfl rfl (by decide)⟩

/-! The per-epoch shuffle performed by train_model. -/

/-- The per-epoch shuffle of train_model (source lines 350-354): one
random permutation lst of range(len(train_x)) applied in common to the
three parallel batch lists.  train_x, train_y and train_lens here are the
lists of batches built once by train_and_test before the epoch loop. -/
def epoch_shuffle {α β γ : Type} (train_x : List α) (train_y : List β)
    (train_lens : List γ) (lst : List Nat) (da : α) (db : β) (dc : γ) :
    List α × List β × List γ :=
  (lst.map (fun l => train_x.getD l da),
   lst.map (fun l => train_y.getD l db),
   lst.map (fun l => train_lens.getD l dc))

/-- C6 counterexample: at a concrete fixed batching of three batches,
every one of the six possible epoch permutations turns the batch list
into a permutation of the very same three batches — every output batch is
literally one of the input batches — so no epoch ever re-buckets examples
into new batch compositions, contradicting the claimed full per-epoch
reshuffle of examples. -/
theorem C6_counterexample :
    ([[0, 1, 2], [0, 2, 1], [1, 0, 2], [1, 2, 0], [2, 0, 1], [2, 1, 0]].all
      (fun lst =>
        decide ((epoch_shuffle [[10, 11], [20, 21], [30]] [[1, 1], [1, 1], [1]]
          [[2, 2], [2, 2], [1]] lst [] [] []).1.Perm [[10, 11], [20, 21], [30]])
        && (epoch_shuffle [[10, 11], [20, 21], [30]] [[1, 1], [1, 1], [1]]
          [[2, 2], [2, 2], [1]] lst [] [] []).1.all
            (fun b => b ∈ [[10, 11], [20, 21], [30]]))) = true := by
  decide

/-- C6 amended: each epoch applies one common random permutation to the
batch lists built once before the epoch loop: the multiset of batches
(the batch compositions) is unchanged, only the batch order varies, and
the three outputs stay aligned position by position. -/
theorem C6_epoch_shuffle_permutes {α β γ : Type} (bx : List α) (by2 : List β)
    (bl : List γ) (lst : List Nat) (da : α) (db : β) (dc : γ)
    (hx : lst.Perm (List.range bx.length))
    (hy : by2.length = bx.length) (hl : bl.length = bx.length) :
    (epoch_shuffle bx by2 bl lst da db dc).1.Perm bx ∧
    (epoch_shuffle bx by2 bl lst da db dc).2.1.Perm by2 ∧
    (epoch_shuffle bx by2 bl lst da db dc).2.2.Perm bl ∧
    (∀ k, k < lst.length →
      (epoch_shuffle bx by2 bl lst da db dc).1.getD k da = bx.getD (lst.getD k 0) da ∧
      (epoch_shuffle bx by2 bl lst da db dc).2.1.getD k db
        = by2.getD (lst.getD k 0) db ∧
      (epoch_shuffle bx by2 bl lst da db dc).2.2.getD k dc
        = bl.getD (lst.getD k 0) dc) := by
  refine ⟨perm_map_getD da hx, perm_map_getD db (by rw [hy]; exact hx),
    perm_map_getD dc (by rw [hl]; exact hx), ?_⟩
  intro k hk
  unfold epoch_shuffle
  exact ⟨getD_map_of_lt _ lst k hk 0 da, getD_map_of_lt _ lst k hk 0 db,
    getD_map_of_lt _ lst k hk 0 dc⟩

/-- Witness for the amended C6 at three concrete batches and the rotation
permutation 2, 0, 1. -/
theorem C6_epoch_shuffle_permutes_witness :
    (([2, 0, 1] : List Nat).Perm (List.range 3)) ∧
    ((epoch_shuffle [[10, 11], [20, 21], [30]] [[1, 1], [1, 1], [1]]
        [[2, 2], [2, 2], [1]] [2, 0, 1] [] [] []).1.Perm
      [[10, 11], [20, 21], [30]] : Prop) :=
  ⟨by decide,
    (C6_epoch_shuffle_permutes [[10, 11], [20, 21], [30]] [[1, 1], [1, 1], [1]]
      [[2, 2], [2, 2], [1]] [2, 0, 1] [] [] [] (by decide) rfl rfl).1⟩

/-! The eval-mode prediction of ClassifyLayer.forward. -/

/-- The index of the first maximal score (torch.max index semantics on a
score vector). -/
def argmaxIdx : List ℚ → Nat
  | [] => 0
  | [_] => 0
  | a :: b :: rest =>
      let j := argmaxIdx (b :: rest)
      if a < (b :: rest).getD j 0 then j + 1 else 0

/-- The eval-mode prediction of ClassifyLayer.forward for one position
(source lines 222-226): slice off column 0 before the arg-max only when
the pad tag has id 0, then add 1 to the result unconditionally — the add
sits outside the if and also fires in the else branch. -/
def classify_predict_pos (padId : Nat) (scores : List ℚ) : Nat :=
  if padId = 0 then argmaxIdx (scores.drop 1) + 1
  else argmaxIdx scores + 1

/-- The same prediction lifted over the batch and sequence dimensions. -/
def classify_predict (padId : Nat) (scores : List (List (List ℚ))) : List (List Nat) :=
  scores.map (fun sent => sent.map (fun pos => classify_predict_pos padId pos))

/-- C7: when the pad tag has id 0 the prediction is the best-scoring
non-pad tag (first two conjuncts: the pad tag is skipped even when it
scores highest, and the true arg-max among tags 1.. is returned); but
when the pad tag has any other id the prediction is NOT the plain
arg-max: the unconditional add of 1 shifts it, here returning tag 1 (the
pad tag itself) where the plain arg-max is tag 0, and even the
out-of-range id 3 on a three-tag vector. -/
theorem C7_padmask_and_shift :
    classify_predict_pos 0 [5, 3, 1] = 1 ∧
    classify_predict_pos 0 [1, 3, 5] = 2 ∧
    classify_predict 0 [[[5, 3, 1], [1, 3, 5]]] = [[1, 2]] ∧
    argmaxIdx [5, 3, 1] = 0 ∧
    classify_predict_pos 1 [5, 3, 1] = 1 ∧
    classify_predict_pos 1 [5, 3, 1] ≠ argmaxIdx [5, 3, 1] ∧
    classify_predict_pos 2 [1, 3, 5] = 3 := by
  refine ⟨by decide, by decide, ?_, by decide, by decide, by decide, by decide⟩
  unfold classify_predict
  simp only [List.map_cons, List.map_nil]
  decide

/-! The rendering of predictions by eval_model. -/

/-- One output line of eval_model (source line 314): the format string
skips its first placeholder argument, so the 1-based index k+1 is
computed but never printed; the printed line is word, gold tag and
predicted tag separated by single spaces. -/
def render_line (k : Nat) (word true_tag predict_tag : String) : String :=
  word ++ " " ++ true_tag ++ " " ++ predict_tag

/-- The lines printed for one sentence: one line per (word, gold,
predicted) triple of the zip — the zip truncates at the original
sentence length, so padded positions produce no line; a tag id missing
from id2label raises KeyError, modelled as none. -/
def render_sentence (id2label : List (Nat × String)) (text : List String)
    (gold pred : List Nat) : Option (List String) :=
  ((text.zip (gold.zip pred)).enum).mapM (fun kp => do
    let tt ← List.lookup kp.2.2.1 id2label
    let pp ← List.lookup kp.2.2.2 id2label
    some (render_line (kp.1 + 1) kp.2.1 tt pp))

/-- All lines written by one eval_model call: the sentences of every
batch position in order, a blank line closing each sentence. -/
def eval_render (id2label : List (Nat × String)) (texts : List (List String))
    (golds preds : List (List Nat)) : Option (List String) := do
  let sents ← (List.range preds.length).mapM (fun bid => do
    let tx ← texts.get? bid
    let g ← golds.get? bid
    let p ← preds.get? bid
    render_sentence id2label tx g p)
  some ((sents.map (fun ls => ls ++ [""])).flatten)

/-- C8 counterexample: a one-token sentence renders as the three-column
line word gold predicted, not as the claimed four-column line starting
with the 1-based token index. -/
theorem C8_counterexample :
    render_sentence [(0, "<pad>"), (1, "O")] ["cat"] [1, 0] [1, 1]
      = some ["cat O O"] ∧
    some ["cat O O"] ≠ some ["1 cat O O"] := by
  constructor
  · rfl
  · decide

/-- The lines of one rendered sentence, position by position: one line
per token of the original sentence text, each holding the word, the
looked-up gold tag and the looked-up predicted tag. -/
lemma render_sentence_spec (id2label : List (Nat × String)) (text : List String)
    (gold pred : List Nat)
    (hg : text.length ≤ gold.length) (hp : text.length ≤ pred.length)
    (hok : ∀ k, k < text.length →
      (List.lookup (gold.getD k 0) id2label).isSome ∧
      (List.lookup (pred.getD k 0) id2label).isSome) :
    render_sentence id2label text gold pred
      = some ((List.range text.length).map (fun k =>
          text.getD k "" ++ " " ++ (List.lookup (gold.getD k 0) id2label).getD ""
            ++ " " ++ (List.lookup (pred.getD k 0) id2label).getD "")) := by
  have hzl : (text.zip (gold.zip pred)).length = text.length := by
    rw [List.length_zip, List.length_zip]
    exact min_eq_left (le_min hg hp)
  have hel : (text.zip (gold.zip pred)).enum.length = text.length := by
    rw [List.enum_length, hzl]
  have hmain : ((text.zip (gold.zip pred)).enum).mapM (fun kp => do
      let tt ← List.lookup kp.2.2.1 id2label
      let pp ← List.lookup kp.2.2.2 id2label
      some (render_line (kp.1 + 1) kp.2.1 tt pp))
      = some (((text.zip (gold.zip pred)).enum).map (fun kp =>
          render_line (kp.1 + 1) kp.2.1 ((List.lookup kp.2.2.1 id2label).getD "")
            ((List.lookup kp.2.2.2 id2label).getD ""))) := by
    refine mapM_eq_map_of_forall _ _ _ ?_
    intro kp hkp
    obtain ⟨i, a⟩ := kp
    obtain ⟨hi, ha⟩ := List.mem_enum hkp
    have hit : i < text.length := by rw [← hzl]; exact hi
    have hig : i < gold.length := lt_of_lt_of_le hit hg
    have hip : i < pred.length := lt_of_lt_of_le hit hp
    have hgz : i < (gold.zip pred).length := by
      rw [List.length_zip]
      exact lt_min hig hip
    have ha2 : a = (text.get ⟨i, hit⟩, (gold.get ⟨i, hig⟩, pred.get ⟨i, hip⟩)) := by
      rw [ha, List.getElem_zip, List.getElem_zip]
      rfl
    have hgid : a.2.1 = gold.getD i 0 := by
      rw [ha2, List.getD_eq_getElem _ _ hig]
      rfl
    have hpid : a.2.2 = pred.getD i 0 := by
      rw [ha2, List.getD_eq_getElem _ _ hip]
      rfl
    obtain ⟨hok1, hok2⟩ := hok i hit
    obtain ⟨tt, htt⟩ := Option.isSome_iff_exists.mp hok1
    obtain ⟨pp, hpp⟩ := Option.isSome_iff_exists.mp hok2
    show (do
        let tt ← List.lookup a.2.1 id2label
        let pp ← List.lookup a.2.2 id2label
        some (render_line (i + 1) a.1 tt pp))
      = some (render_line (i + 1) a.1 ((List.lookup a.2.1 id2label).getD "")
          ((List.lookup a.2.2 id2label).getD ""))
    rw [hgid, hpid, htt, hpp]
    simp only [Option.bind_eq_bind, Option.some_bind, Option.getD_some]
  unfold render_sentence
  rw [hmain]
  congr 1
  apply List.ext_getElem
  · rw [List.length_map, hel, List.length_map, List.length_range]
  · intro k h1 h2
    have hk : k < text.length := by
      rw [List.length_map, hel] at h1
      exact h1
    have hke : k < (text.zip (gold.zip pred)).enum.length := by rw [hel]; exact hk
    have hkz : k < (text.zip (gold.zip pred)).length := by rw [hzl]; exact hk
    have hkr : k < (List.range text.length).length := by
      rw [List.length_range]
      exact hk
    have hig : k < gold.length := lt_of_lt_of_le hk hg
    have hip : k < pred.length := lt_of_lt_of_le hk hp
    rw [List.getElem_map, List.getElem_map, List.getElem_enum, List.getElem_range,
      List.getElem_zip, List.getElem_zip]
    unfold render_line
    rw [List.getD_eq_getElem text "" hk, List.getD_eq_getElem gold 0 hig,
      List.getD_eq_getElem pred 0 hip]

/-- C8 amended: eval_model renders exactly one line per real (non-padded)
token, in the fixed column order word, gold tag, predicted tag — the
1-based token index is computed but omitted from the line — with a blank
line closing each sentence, and the whole line list is produced as one
value (the file is written and closed before the external scorer runs). -/
theorem C8_render_format (id2label : List (Nat × String))
    (texts : List (List String)) (golds preds : List (List Nat))
    (ht : texts.length = preds.length) (hgl : golds.length = preds.length)
    (hg : ∀ b, b < preds.length → (texts.getD b []).length ≤ (golds.getD b []).length)
    (hp : ∀ b, b < preds.length → (texts.getD b []).length ≤ (preds.getD b []).length)
    (hok : ∀ b, b < preds.length → ∀ k, k < (texts.getD b []).length →
      (List.lookup ((golds.getD b []).getD k 0) id2label).isSome ∧
      (List.lookup ((preds.getD b []).getD k 0) id2label).isSome) :
    eval_render id2label texts golds preds
      = some (((List.range preds.length).map (fun b =>
          (List.range (texts.getD b []).length).map (fun k =>
            (texts.getD b []).getD k "" ++ " "
              ++ (List.lookup ((golds.getD b []).getD k 0) id2label).getD "" ++ " "
              ++ (List.lookup ((preds.getD b []).getD k 0) id2label).getD "")
            ++ [""])).flatten) := by
  have houter : (List.range preds.length).mapM (fun bid => do
      let tx ← texts.get? bid
      let g ← golds.get? bid
      let p ← preds.get? bid
      render_sentence id2label tx g p)
      = some ((List.range preds.length).map (fun b =>
          (List.range (texts.getD b []).length).map (fun k =>
            (texts.getD b []).getD k "" ++ " "
              ++ (List.lookup ((golds.getD b []).getD k 0) id2label).getD "" ++ " "
              ++ (List.lookup ((preds.getD b []).getD k 0) id2label).getD ""))) := by
    refine mapM_eq_map_of_forall _ _ _ ?_
    intro b hb
    have hbp : b < preds.length := List.mem_range.mp hb
    show (do
        let tx ← texts.get? b
        let g ← golds.get? b
        let p ← preds.get? b
        render_sentence id2label tx g p)
      = some ((List.range (texts.getD b []).length).map (fun k =>
          (texts.getD b []).getD k "" ++ " "
            ++ (List.lookup ((golds.getD b []).getD k 0) id2label).getD "" ++ " "
            ++ (List.lookup ((preds.getD b []).getD k 0) id2label).getD ""))
    rw [get?_eq_getD texts b [] (by rw [ht]; exact hbp)]
    simp only [Option.bind_eq_bind, Option.some_bind]
    rw [get?_eq_getD golds b [] (by rw [hgl]; exact hbp)]
    simp only [Option.some_bind]
    rw [get?_eq_getD preds b [] hbp]
    simp only [Option.some_bind]
    rw [render_sentence_spec id2label _ _ _ (hg b hbp) (hp b hbp) (hok b hbp)]
  unfold eval_render
  simp only [Option.bind_eq_bind] at houter ⊢
  rw [houter]
  simp only [Option.some_bind]
  rw [List.map_map]
  rfl

/-- Witness for the amended C8 at one two-token sentence: the rendered
lines are the two three-column token lines followed by the blank line. -/
theorem C8_render_format_witness :
    ([["cat", "sat"]] : List (List String)).length = ([[1, 1, 1]] : List (List Nat)).length ∧
    eval_render [(0, "<pad>"), (1, "O")] [["cat", "sat"]] [[1, 1, 0]] [[1, 1, 1]]
      = some ["cat O O", "sat O O", ""] :=
  ⟨rfl,
    C8_render_format [(0, "<pad>"), (1, "O")] [["cat", "sat"]] [[1, 1, 0]] [[1, 1, 1]]
      rfl rfl (by decide) (by decide) (by decide)⟩

end PosTagger
